import Mathlib

/-! go_swift: SWIFT-code REST service

A shallow embedding of `internal/model`, `internal/service`,
`internal/handler` and `internal/repository` of the repository, followed by
theorems about the service's validation, projection and status-code
behaviour.

Conventions of the embedding
* A Go `string` is its sequence of bytes (`GoString`); `len(s)` is the
  length of that sequence, `s[:n]` and `s[n:]` are `take` and `drop`.
* A Go `error` is represented by the text `err.Error()` returns.
* `SwiftCodeRepository` is the Go interface of the same name; its methods
  read and update an explicit store state `σ`.  Every call the service makes
  on the repository is appended to a trace of `RepoCall`s.
* `MySQLSwiftRepository` implements that interface over `SqlDB`, the
  database behind `repo.DB` with one operation per statement.
-/

namespace GoSwift

/-! ## Strings and errors -/

/-- A Go string: an immutable sequence of bytes. -/
abbrev GoString := List Nat

/-- The bytes of a string literal (its UTF-8 encoding, as Go source text is). -/
def str (s : String) : GoString :=
  (s.toList.flatMap String.utf8EncodeChar).map UInt8.toNat

/-- A Go `error` value, identified with the text of `err.Error()`. -/
structure GoError where
  msg : GoString
deriving DecidableEq, Repr

/-- The call `fmt.Errorf(text)` with a constant text. -/
def Errorf (text : String) : GoError := ⟨str text⟩

/-- The call `fmt.Errorf(text + ": %w", err)`: the text, then the wrapped error's message. -/
def ErrorfW (text : String) (err : GoError) : GoError := ⟨str text ++ err.msg⟩

/-- ASCII branch of `strings.ToUpper`: bytes `'a'..'z'` are moved to `'A'..'Z'`. -/
def asciiUpper (s : GoString) : GoString :=
  s.map fun c => if 97 ≤ c ∧ c ≤ 122 then c - 32 else c

/-- The library function `strings.ToUpper`.  A string of ASCII bytes only is
returned unchanged when it has no lower-case letter and is mapped bytewise
otherwise; any other string goes through `strings.Map(unicode.ToUpper, s)`,
whose Unicode tables are the parameter `unicodeUpper`. -/
def ToUpper (unicodeUpper : GoString → GoString) (s : GoString) : GoString :=
  let isASCII := s.all fun c => decide (c < 128)
  let hasLower := s.any fun c => decide (97 ≤ c ∧ c ≤ 122)
  if isASCII then
    if !hasLower then s else asciiUpper s
  else unicodeUpper s

/-- The library function `strings.HasPrefix`. -/
def HasPrefix (s pfx : GoString) : Bool := pfx.isPrefixOf s

/-- The library function `strings.TrimPrefix`. -/
def TrimPrefix (s pfx : GoString) : GoString :=
  if HasPrefix s pfx then s.drop pfx.length else s

/-! ## `internal/model` -/

/-- Branch summary inside a detail response (`model.SwiftCodeBranch`). -/
structure SwiftCodeBranch where
  Address : GoString
  BankName : GoString
  CountryISO2 : GoString
  IsHeadquarter : Bool
  SwiftCode : GoString
deriving DecidableEq, Repr

/-- Response for a single SWIFT code (`model.SwiftCodeResponse`). The field
`Branches` carries the tag `json:"branches,omitempty"`. -/
structure SwiftCodeResponse where
  Address : GoString
  BankName : GoString
  CountryISO2 : GoString
  CountryName : GoString
  IsHeadquarter : Bool
  SwiftCode : GoString
  Branches : List SwiftCodeBranch
deriving DecidableEq, Repr

/-- Summary of one code in a country listing (`model.SwiftCodeMinimalResponse`). -/
structure SwiftCodeMinimalResponse where
  Address : GoString
  BankName : GoString
  CountryISO2 : GoString
  IsHeadquarter : Bool
  SwiftCode : GoString
deriving DecidableEq, Repr

/-- Response for the codes of a country (`model.SwiftCodesByCountryResponse`). -/
structure SwiftCodesByCountryResponse where
  CountryISO2 : GoString
  CountryName : GoString
  SwiftCodes : List SwiftCodeMinimalResponse
deriving DecidableEq, Repr

/-- Body of a create request (`model.CreateSwiftCodeRequest`). -/
structure CreateSwiftCodeRequest where
  Address : GoString
  BankName : GoString
  CountryISO2 : GoString
  CountryName : GoString
  IsHeadquarter : Bool
  SwiftCode : GoString
deriving DecidableEq, Repr

/-- Row of the `banks` table (`model.SwiftEntity`). -/
structure SwiftEntity where
  Address : GoString
  BankName : GoString
  CountryISO2 : GoString
  CountryName : GoString
  IsHeadquarter : Bool
  SwiftCode : GoString
deriving DecidableEq, Repr

/-! ## `internal/service` -/

/-- A call made on the repository, with its arguments. -/
inductive RepoCall where
  | GetBySwiftCode (code : GoString)
  | GetBranchesByHqSwiftCode (hqCode : GoString)
  | GetByCountry (countryISO2 : GoString)
  | Create (swift : SwiftEntity)
  | Delete (swiftCode : GoString)
deriving DecidableEq, Repr

/-- The interface `service.SwiftCodeRepository` over a store state `σ`.  A Go
result pair `(value, error)` is an `Except`: either the non-nil error or the
value (a `*SwiftEntity` that may be nil is an `Option`); a lone `error` result
is an `Option GoError`, `none` being `nil`.  Each method also returns the
store state it leaves behind. -/
structure SwiftCodeRepository (σ : Type) where
  GetBySwiftCode : σ → GoString → Except GoError (Option SwiftEntity) × σ
  GetBranchesByHqSwiftCode : σ → GoString → Except GoError (List SwiftEntity) × σ
  GetByCountry : σ → GoString → Except GoError (List SwiftEntity) × σ
  Create : σ → SwiftEntity → Option GoError × σ
  Delete : σ → GoString → Option GoError × σ

/-- The outcome of running a service method: what it returned, the store
state afterwards, and the repository calls it made, in order. -/
structure Run (σ α : Type) where
  ret : α
  store : σ
  calls : List RepoCall

/-- What a method returning `(*T, error)` can do: return a value with a nil
error, return a non-nil error, or stop with a run-time panic. -/
inductive GoResult (α : Type) where
  | value (a : α)
  | error (err : GoError)
  | panic (text : String)
deriving DecidableEq, Repr

/-- The branch summary built in the loop of `GetSwiftCodeDetails` from a row
that is not flagged headquarters. -/
def toBranch (unicodeUpper : GoString → GoString) (b : SwiftEntity) : SwiftCodeBranch :=
  { Address := b.Address
    BankName := b.BankName
    CountryISO2 := ToUpper unicodeUpper b.CountryISO2
    IsHeadquarter := b.IsHeadquarter
    SwiftCode := b.SwiftCode }

/-- The loop `for _, b := range branches` of `GetSwiftCodeDetails`, appending to
`acc` (the response's `Branches` so far). -/
def appendBranches (unicodeUpper : GoString → GoString) :
    List SwiftCodeBranch → List SwiftEntity → List SwiftCodeBranch
  | acc, [] => acc
  | acc, b :: rest =>
    if b.IsHeadquarter then appendBranches unicodeUpper acc rest
    else appendBranches unicodeUpper (acc ++ [toBranch unicodeUpper b]) rest

/-- The method `SwiftCodeService.GetSwiftCodeDetails`. -/
def GetSwiftCodeDetails {σ : Type} (unicodeUpper : GoString → GoString)
    (repo : SwiftCodeRepository σ) (st : σ) (swiftCode : GoString) :
    Run σ (GoResult (Option SwiftCodeResponse)) :=
  match repo.GetBySwiftCode st swiftCode with
  | (.error err, st1) => ⟨.error err, st1, [.GetBySwiftCode swiftCode]⟩
  | (.ok none, st1) => ⟨.value none, st1, [.GetBySwiftCode swiftCode]⟩
  | (.ok (some entity0), st1) =>
    let entity : SwiftEntity :=
      { entity0 with
        CountryISO2 := ToUpper unicodeUpper entity0.CountryISO2
        CountryName := ToUpper unicodeUpper entity0.CountryName }
    let response : SwiftCodeResponse :=
      { Address := entity.Address
        BankName := entity.BankName
        CountryISO2 := entity.CountryISO2
        CountryName := entity.CountryName
        IsHeadquarter := entity.IsHeadquarter
        SwiftCode := entity.SwiftCode
        Branches := [] }
    if entity.IsHeadquarter then
      if entity.SwiftCode.length < 8 then
        ⟨.panic "slice bounds out of range", st1, [.GetBySwiftCode swiftCode]⟩
      else
        match repo.GetBranchesByHqSwiftCode st1 (entity.SwiftCode.take 8) with
        | (.error err, st2) =>
          ⟨.error err, st2,
            [.GetBySwiftCode swiftCode, .GetBranchesByHqSwiftCode (entity.SwiftCode.take 8)]⟩
        | (.ok branches, st2) =>
          ⟨.value (some { response with
              Branches := appendBranches unicodeUpper response.Branches branches }), st2,
            [.GetBySwiftCode swiftCode, .GetBranchesByHqSwiftCode (entity.SwiftCode.take 8)]⟩
    else
      ⟨.value (some response), st1, [.GetBySwiftCode swiftCode]⟩

/-- The summary built in the loop of `GetSwiftCodesByCountry`. -/
def toMinimal (entity : SwiftEntity) : SwiftCodeMinimalResponse :=
  { Address := entity.Address
    BankName := entity.BankName
    CountryISO2 := entity.CountryISO2
    IsHeadquarter := entity.IsHeadquarter
    SwiftCode := entity.SwiftCode }

/-- The loop `for _, entity := range entities` of `GetSwiftCodesByCountry`,
appending to `acc` (the response's `SwiftCodes` so far). -/
def appendMinimal : List SwiftCodeMinimalResponse → List SwiftEntity →
    List SwiftCodeMinimalResponse
  | acc, [] => acc
  | acc, entity :: rest => appendMinimal (acc ++ [toMinimal entity]) rest

/-- The method `SwiftCodeService.GetSwiftCodesByCountry`. -/
def GetSwiftCodesByCountry {σ : Type} (unicodeUpper : GoString → GoString)
    (repo : SwiftCodeRepository σ) (st : σ) (countryISO2 : GoString) :
    Run σ (Except GoError (Option SwiftCodesByCountryResponse)) :=
  match repo.GetByCountry st countryISO2 with
  | (.error err, st1) => ⟨.error err, st1, [.GetByCountry countryISO2]⟩
  | (.ok [], st1) => ⟨.ok none, st1, [.GetByCountry countryISO2]⟩
  | (.ok (first :: rest), st1) =>
    let countryISO2U := ToUpper unicodeUpper countryISO2
    let countryName := ToUpper unicodeUpper first.CountryName
    ⟨.ok (some
        { CountryISO2 := countryISO2U
          CountryName := countryName
          SwiftCodes := appendMinimal [] (first :: rest) }), st1,
      [.GetByCountry countryISO2]⟩

/-- The error of the length check of `CreateSwiftCode` and `DeleteSwiftCode`. -/
def errInvalidFormat : GoError :=
  Errorf "invalid SWIFT code: must be at least 8 characters"

/-- The error of the country check of `CreateSwiftCode`. -/
def errMissingCountry : GoError :=
  Errorf "countryISO2 and countryName cannot be empty"

/-- The error of the name and address check of `CreateSwiftCode`. -/
def errMissingBank : GoError :=
  Errorf "bankName and address cannot be empty"

/-- The error of the headquarters-flag check of `CreateSwiftCode`. -/
def errInconsistentFlag : GoError :=
  Errorf "SWIFT code does not match the provided isHeadquarter value"

/-- The flag `isHQ` computed by `CreateSwiftCode`:
`len(req.SwiftCode) == 11 && req.SwiftCode[8:] == "XXX"`. -/
def isHQ (swiftCode : GoString) : Bool :=
  decide (swiftCode.length = 11) && decide (swiftCode.drop 8 = str "XXX")

/-- The entity `CreateSwiftCode` builds from a request. -/
def newEntity (unicodeUpper : GoString → GoString) (req : CreateSwiftCodeRequest) :
    SwiftEntity :=
  { SwiftCode := req.SwiftCode
    BankName := req.BankName
    Address := req.Address
    CountryISO2 := ToUpper unicodeUpper req.CountryISO2
    CountryName := ToUpper unicodeUpper req.CountryName
    IsHeadquarter := req.IsHeadquarter }

/-- The method `SwiftCodeService.CreateSwiftCode`. -/
def CreateSwiftCode {σ : Type} (unicodeUpper : GoString → GoString)
    (repo : SwiftCodeRepository σ) (st : σ) (req : CreateSwiftCodeRequest) :
    Run σ (Option GoError) :=
  if req.SwiftCode.length < 8 then
    ⟨some errInvalidFormat, st, []⟩
  else if req.CountryISO2 = [] ∨ req.CountryName = [] then
    ⟨some errMissingCountry, st, []⟩
  else if req.BankName = [] ∨ req.Address = [] then
    ⟨some errMissingBank, st, []⟩
  else if isHQ req.SwiftCode != req.IsHeadquarter then
    ⟨some errInconsistentFlag, st, []⟩
  else
    let entity := newEntity unicodeUpper req
    match repo.Create st entity with
    | (some err, st1) =>
      ⟨some (ErrorfW "failed to create SWIFT code: " err), st1, [.Create entity]⟩
    | (none, st1) => ⟨none, st1, [.Create entity]⟩

/-- The method `SwiftCodeService.DeleteSwiftCode`. -/
def DeleteSwiftCode {σ : Type} (repo : SwiftCodeRepository σ) (st : σ)
    (swiftCode : GoString) : Run σ (Option GoError) :=
  if swiftCode.length < 8 then
    ⟨some errInvalidFormat, st, []⟩
  else
    match repo.Delete st swiftCode with
    | (some err, st1) =>
      ⟨some (ErrorfW "failed to delete SWIFT code: " err), st1, [.Delete swiftCode]⟩
    | (none, st1) => ⟨none, st1, [.Delete swiftCode]⟩

/-! ## `internal/handler` -/

/-- A JSON document, as `encoding/json` writes it. -/
inductive Json where
  | null
  | bool (b : Bool)
  | string (s : GoString)
  | array (elems : List Json)
  | object (members : List (String × Json))

/-- The member of a JSON object under a key, if the document is an object
that has one. -/
def Json.member (doc : Json) (key : String) : Option Json :=
  match doc with
  | .object members => members.lookup key
  | _ => none

/-- The encoding of a `model.SwiftCodeBranch`, member names from its tags. -/
def encodeSwiftCodeBranch (b : SwiftCodeBranch) : Json :=
  .object
    [("address", .string b.Address),
     ("bankName", .string b.BankName),
     ("countryISO2", .string b.CountryISO2),
     ("isHeadquarter", .bool b.IsHeadquarter),
     ("swiftCode", .string b.SwiftCode)]

/-- What `json.NewEncoder(w).Encode(result)` writes for a non-nil
`*model.SwiftCodeResponse`: the fields in declaration order under the names of
their tags; `Branches` is tagged `json:"branches,omitempty"`, so the encoder
leaves the member out when the slice has length zero. -/
def encodeSwiftCodeResponse (r : SwiftCodeResponse) : Json :=
  .object
    ([("address", .string r.Address),
      ("bankName", .string r.BankName),
      ("countryISO2", .string r.CountryISO2),
      ("countryName", .string r.CountryName),
      ("isHeadquarter", .bool r.IsHeadquarter),
      ("swiftCode", .string r.SwiftCode)] ++
     (if r.Branches.length = 0 then []
      else [("branches", Json.array (r.Branches.map encodeSwiftCodeBranch))]))

/-- The body of a response: plain text or an encoded JSON document. -/
inductive ResponseBody where
  | text (s : GoString)
  | json (doc : Json)

/-- What a handler has written to its `http.ResponseWriter`. -/
structure ResponseRecorder where
  Code : Nat
  Header : List (String × String)
  Body : ResponseBody

/-- What serving a request ends in: a written response, or a panic of the
handler before anything was written. -/
inductive Served where
  | response (w : ResponseRecorder)
  | panic (text : String)

/-- The status code of a served request, if a response was written. -/
def Served.code : Served → Option Nat
  | .response w => some w.Code
  | .panic _ => none

/-- The body of a served request, if a response was written as JSON. -/
def Served.jsonBody : Served → Option Json
  | .response ⟨_, _, .json doc⟩ => some doc
  | _ => none

/-- The body of a served request, if a response was written as plain text. -/
def Served.textBody : Served → Option GoString
  | .response ⟨_, _, .text s⟩ => some s
  | _ => none

/-- The constant `http.StatusOK`. -/
def StatusOK : Nat := 200

/-- The constant `http.StatusNotFound`. -/
def StatusNotFound : Nat := 404

/-- The library function `http.Error`: a plain-text reply with the given code. -/
def httpError (text : GoString) (code : Nat) : ResponseRecorder :=
  { Code := code
    Header := [("Content-Type", "text/plain; charset=utf-8"),
               ("X-Content-Type-Options", "nosniff")]
    Body := .text (text ++ str "\n") }

/-- The library function `http.NotFound`. -/
def httpNotFound : ResponseRecorder :=
  httpError (str "404 page not found") StatusNotFound

/-- An incoming request: method, `r.URL.Path` and body. -/
structure Request where
  Method : String
  Path : GoString
  Body : GoString

/-- The handler `GetSwiftCodeHandler`, serving `GET /api/v1/swift-codes/{swift-code}`
against the service over `repo`. -/
def GetSwiftCodeHandler {σ : Type} (unicodeUpper : GoString → GoString)
    (repo : SwiftCodeRepository σ) (st : σ) (r : Request) : Run σ Served :=
  let pfx := str "/api/v1/swift-codes/"
  if !HasPrefix r.Path pfx then
    ⟨.response httpNotFound, st, []⟩
  else
    let swiftCode := TrimPrefix r.Path pfx
    if swiftCode = [] then
      ⟨.response httpNotFound, st, []⟩
    else
      let run := GetSwiftCodeDetails unicodeUpper repo st swiftCode
      match run.ret with
      | .panic text => ⟨.panic text, run.store, run.calls⟩
      | .error _ =>
        ⟨.response (httpError (str "SWIFT code not found") StatusNotFound), run.store, run.calls⟩
      | .value none =>
        ⟨.response (httpError (str "SWIFT code not found") StatusNotFound), run.store, run.calls⟩
      | .value (some result) =>
        ⟨.response
            { Code := StatusOK
              Header := [("Content-Type", "application/json")]
              Body := .json (encodeSwiftCodeResponse result) },
          run.store, run.calls⟩

/-- The library function `strings.Contains`: `substr` starts at some position
of `s`. -/
def Contains : GoString → GoString → Bool
  | [], substr => substr.isPrefixOf []
  | c :: s, substr => substr.isPrefixOf (c :: s) || Contains s substr

/-- The constant `http.StatusCreated`. -/
def StatusCreated : Nat := 201

/-- The constant `http.StatusBadRequest`. -/
def StatusBadRequest : Nat := 400

/-- The constant `http.StatusMethodNotAllowed`. -/
def StatusMethodNotAllowed : Nat := 405

/-- The constant `http.StatusInternalServerError`. -/
def StatusInternalServerError : Nat := 500

/-- The encoding of a `model.SwiftCodeMinimalResponse`, member names from its tags. -/
def encodeSwiftCodeMinimalResponse (m : SwiftCodeMinimalResponse) : Json :=
  .object
    [("address", .string m.Address),
     ("bankName", .string m.BankName),
     ("countryISO2", .string m.CountryISO2),
     ("isHeadquarter", .bool m.IsHeadquarter),
     ("swiftCode", .string m.SwiftCode)]

/-- What `json.NewEncoder(w).Encode(results)` writes for a
`*model.SwiftCodesByCountryResponse`: `null` for the nil pointer, otherwise the
three fields under the names of their tags. -/
def encodeSwiftCodesByCountryResponse : Option SwiftCodesByCountryResponse → Json
  | none => .null
  | some r =>
    .object
      [("countryISO2", .string r.CountryISO2),
       ("countryName", .string r.CountryName),
       ("swiftCodes", .array (r.SwiftCodes.map encodeSwiftCodeMinimalResponse))]

/-- What `json.NewEncoder(w).Encode(...)` writes for the `map[string]string`
with the one key "message". -/
def encodeMessage (text : String) : Json :=
  .object [("message", .string (str text))]

/-- The handler `GetSwiftCodesByCountryHandler`, serving
`GET /api/v1/swift-codes/country/...` against the service over `repo`. -/
def GetSwiftCodesByCountryHandler {σ : Type} (unicodeUpper : GoString → GoString)
    (repo : SwiftCodeRepository σ) (st : σ) (r : Request) : Run σ Served :=
  let pfx := str "/api/v1/swift-codes/country/"
  if !HasPrefix r.Path pfx then
    ⟨.response httpNotFound, st, []⟩
  else
    let countryCode := TrimPrefix r.Path pfx
    if countryCode = [] then
      ⟨.response httpNotFound, st, []⟩
    else
      let run := GetSwiftCodesByCountry unicodeUpper repo st countryCode
      match run.ret with
      | .error _ =>
        ⟨.response (httpError (str "Error fetching SWIFT codes") StatusInternalServerError),
          run.store, run.calls⟩
      | .ok results =>
        ⟨.response
            { Code := StatusOK
              Header := [("Content-Type", "application/json")]
              Body := .json (encodeSwiftCodesByCountryResponse results) },
          run.store, run.calls⟩

/-- The handler `CreateSwiftCodeHandler`, serving `POST /api/v1/swift-codes`.
The parameter `decode` is `json.NewDecoder(r.Body).Decode(&req)`: the request
it fills in, or the error it returns. -/
def CreateSwiftCodeHandler {σ : Type}
    (decode : GoString → Except GoError CreateSwiftCodeRequest)
    (unicodeUpper : GoString → GoString)
    (repo : SwiftCodeRepository σ) (st : σ) (r : Request) : Run σ Served :=
  if r.Method ≠ "POST" then
    ⟨.response (httpError (str "Method not allowed") StatusMethodNotAllowed), st, []⟩
  else
    match decode r.Body with
    | .error _ =>
      ⟨.response (httpError (str "Invalid request data") StatusBadRequest), st, []⟩
    | .ok req =>
      let run := CreateSwiftCode unicodeUpper repo st req
      match run.ret with
      | some err =>
        ⟨.response (httpError (str "Failed to create SWIFT code: " ++ err.msg)
            StatusInternalServerError), run.store, run.calls⟩
      | none =>
        ⟨.response
            { Code := StatusCreated
              Header := [("Content-Type", "application/json")]
              Body := .json (encodeMessage "SWIFT code created successfully") },
          run.store, run.calls⟩

/-- The handler `DeleteSwiftCodeHandler`, serving
`DELETE /api/v1/swift-codes/...` against the service over `repo`. -/
def DeleteSwiftCodeHandler {σ : Type} (repo : SwiftCodeRepository σ) (st : σ)
    (r : Request) : Run σ Served :=
  if r.Method ≠ "DELETE" then
    ⟨.response (httpError (str "Method not allowed") StatusMethodNotAllowed), st, []⟩
  else
    let pfx := str "/api/v1/swift-codes/"
    if !HasPrefix r.Path pfx then
      ⟨.response httpNotFound, st, []⟩
    else
      let swiftCode := TrimPrefix r.Path pfx
      if swiftCode = [] then
        ⟨.response httpNotFound, st, []⟩
      else
        let run := DeleteSwiftCode repo st swiftCode
        match run.ret with
        | some err =>
          if Contains err.msg (str "no SWIFT code found") then
            ⟨.response (httpError (str "SWIFT code not found") StatusNotFound),
              run.store, run.calls⟩
          else
            ⟨.response (httpError (str "Failed to delete SWIFT code: " ++ err.msg)
                StatusInternalServerError), run.store, run.calls⟩
        | none =>
          ⟨.response
              { Code := StatusOK
                Header := [("Content-Type", "application/json")]
                Body := .json (encodeMessage "SWIFT code deleted successfully") },
            run.store, run.calls⟩

/-! ## `internal/repository` -/

/-- What `QueryRowContext(...).Scan(...)` gives: the row, `sql.ErrNoRows`, or
another error. -/
inductive RowScan where
  | row (entity : SwiftEntity)
  | errNoRows
  | failed (err : GoError)

/-- What iterating the rows of a successful `QueryContext` gives: every row
scanned and a nil `rows.Err()`, or an error of a `Scan`, or a non-nil
`rows.Err()` after the loop. -/
inductive RowsScan where
  | rows (entities : List SwiftEntity)
  | scanFailed (err : GoError)
  | iterFailed (err : GoError)

/-- What `ExecContext` gives for a statement whose affected rows are read:
its error, or a result whose `RowsAffected()` returns an error or a count. -/
inductive ExecResult where
  | failed (err : GoError)
  | rowsAffectedFailed (err : GoError)
  | rowsAffected (n : Int)

/-- The database behind `repo.DB`, as far as the repository uses it: one
operation for each of its five statements, with the statement's argument.
The database and its driver are outside the repository; they are a
parameter of the embedding. -/
structure SqlDB (δ : Type) where
  selectBySwiftCode : δ → GoString → RowScan × δ
  selectBranches : δ → GoString → Except GoError RowsScan × δ
  selectByCountry : δ → GoString → Except GoError RowsScan × δ
  insert : δ → SwiftEntity → Option GoError × δ
  delete : δ → GoString → ExecResult × δ

/-- The loop over `rows` shared by `GetBranchesByHqSwiftCode` and
`GetByCountry`, after a `QueryContext` that returned no error. -/
def collectRows : RowsScan → Except GoError (List SwiftEntity)
  | .scanFailed err => .error (ErrorfW "failed to scan row: " err)
  | .iterFailed err => .error (ErrorfW "rows iteration error: " err)
  | .rows entities => .ok entities

/-- The type `repository.MySQLSwiftRepository` with its five methods, over the
database `db`. -/
def MySQLSwiftRepository {δ : Type} (db : SqlDB δ) : SwiftCodeRepository δ where
  GetBySwiftCode st swiftCode :=
    match db.selectBySwiftCode st swiftCode with
    | (.errNoRows, st1) => (.ok none, st1)
    | (.failed err, st1) => (.error err, st1)
    | (.row entity, st1) => (.ok (some entity), st1)
  GetBranchesByHqSwiftCode st hqCode :=
    match db.selectBranches st (hqCode ++ str "%") with
    | (.error err, st1) => (.error (ErrorfW "failed to execute query: " err), st1)
    | (.ok scan, st1) => (collectRows scan, st1)
  GetByCountry st countryISO2 :=
    match db.selectByCountry st countryISO2 with
    | (.error err, st1) => (.error (ErrorfW "failed to execute query: " err), st1)
    | (.ok scan, st1) => (collectRows scan, st1)
  Create st swift :=
    match db.insert st swift with
    | (some err, st1) => (some (ErrorfW "failed to execute insert query: " err), st1)
    | (none, st1) => (none, st1)
  Delete st swiftCode :=
    match db.delete st swiftCode with
    | (.failed err, st1) => (some (ErrorfW "failed to execute delete query: " err), st1)
    | (.rowsAffectedFailed err, st1) =>
      (some (ErrorfW "failed to check rows affected: " err), st1)
    | (.rowsAffected n, st1) =>
      if n = 0 then (some (Errorf "no SWIFT code found with the given value"), st1)
      else (none, st1)

/-! ## Stores and requests used in examples -/

/-- Stand-in for the Unicode tables in examples: it leaves a string as it is.
`ToUpper` consults it on strings with a non-ASCII byte only. -/
def noUnicode : GoString → GoString := fun s => s

/-- An in-memory repository on a working store: the rows of the table in
insertion order, `swift_code` being the key. -/
def memoryRepo : SwiftCodeRepository (List SwiftEntity) where
  GetBySwiftCode rows code := (.ok (rows.find? fun e => decide (e.SwiftCode = code)), rows)
  GetBranchesByHqSwiftCode rows hqCode :=
    (.ok (rows.filter fun e => hqCode.isPrefixOf e.SwiftCode && !e.IsHeadquarter), rows)
  GetByCountry rows countryISO2 :=
    (.ok (rows.filter fun e => decide (e.CountryISO2 = countryISO2)), rows)
  Create rows swift :=
    if rows.any fun e => decide (e.SwiftCode = swift.SwiftCode) then
      (some (Errorf "failed to execute insert query: duplicate entry"), rows)
    else (none, rows ++ [swift])
  Delete rows swiftCode :=
    if rows.any fun e => decide (e.SwiftCode = swiftCode) then
      (none, rows.filter fun e => decide (e.SwiftCode ≠ swiftCode))
    else (some (Errorf "no SWIFT code found with the given value"), rows)

/-- The in-memory repository with a branch query that fails, as a store does
whose connection is lost between two queries. -/
def branchFailRepo : SwiftCodeRepository (List SwiftEntity) :=
  { memoryRepo with
    GetBranchesByHqSwiftCode := fun rows _ =>
      (.error (Errorf "failed to execute query: connection lost"), rows) }

/-- The request of `TestCreateSwiftCode`. -/
def reqTestBank : CreateSwiftCodeRequest :=
  { SwiftCode := str "TESTUS33XXX"
    BankName := str "Test Bank"
    Address := str "123 Main St"
    CountryISO2 := str "US"
    CountryName := str "United States"
    IsHeadquarter := true }

/-- The request of `TestCreateSwiftCodeValidationError`: a code of 7 bytes,
flagged headquarters. -/
def reqInvalid : CreateSwiftCodeRequest :=
  { SwiftCode := str "INVALID"
    BankName := str "Test Bank"
    Address := str "123 Main St"
    CountryISO2 := str "US"
    CountryName := str "United States"
    IsHeadquarter := true }

/-- A headquarters request with its country fields in lower case. -/
def reqLowerCase : CreateSwiftCodeRequest :=
  { SwiftCode := str "TESTUS33XXX"
    BankName := str "Test Bank"
    Address := str "123 Main St"
    CountryISO2 := str "us"
    CountryName := str "united states"
    IsHeadquarter := true }

/-- The headquarters row of `TestGetSwiftCodeDetails`. -/
def rowHeadquarter : SwiftEntity :=
  { SwiftCode := str "TESTUS33XXX"
    BankName := str "Test Bank"
    Address := str "123 Main St"
    CountryISO2 := str "US"
    CountryName := str "United States"
    IsHeadquarter := true }

/-- The branch row of `TestGetSwiftCodeDetails`. -/
def rowBranch : SwiftEntity :=
  { SwiftCode := str "TESTUS33ABC"
    BankName := str "Test Branch"
    Address := str "456 Branch St"
    CountryISO2 := str "US"
    CountryName := str "United States"
    IsHeadquarter := false }

/-- The details expected for "TESTUS33XXX" when the store holds the two rows
of `TestGetSwiftCodeDetails`. -/
def respHeadquarter : SwiftCodeResponse :=
  { Address := str "123 Main St"
    BankName := str "Test Bank"
    CountryISO2 := str "US"
    CountryName := str "UNITED STATES"
    IsHeadquarter := true
    SwiftCode := str "TESTUS33XXX"
    Branches :=
      [{ Address := str "456 Branch St"
         BankName := str "Test Branch"
         CountryISO2 := str "US"
         IsHeadquarter := false
         SwiftCode := str "TESTUS33ABC" }] }

/-- A second row of country "US", stored with its country fields as given. -/
def rowLowerCase : SwiftEntity :=
  { SwiftCode := str "BANKUS44"
    BankName := str "Second Bank"
    Address := str "9 Side St"
    CountryISO2 := str "us"
    CountryName := str "usa"
    IsHeadquarter := false }

/-- A database that cannot be reached: every statement fails with `err`. -/
def failingDB (err : GoError) : SqlDB Unit where
  selectBySwiftCode st _ := (.failed err, st)
  selectBranches st _ := (.error err, st)
  selectByCountry st _ := (.error err, st)
  insert st _ := (some err, st)
  delete st _ := (.failed err, st)

/-- An in-memory table behind the repository: the rows in insertion order.
The column `swift_code` is the key and holds at most 11 bytes; the driver
reports every refused insert with the one text "constraint failed".  A `LIKE`
pattern is matched as the bytes before its final `%`, followed by anything. -/
def tableDB : SqlDB (List SwiftEntity) where
  selectBySwiftCode rows swiftCode :=
    match rows.find? fun e => decide (e.SwiftCode = swiftCode) with
    | some e => (.row e, rows)
    | none => (.errNoRows, rows)
  selectBranches rows pattern :=
    (.ok (.rows (rows.filter fun e =>
      pattern.dropLast.isPrefixOf e.SwiftCode && !e.IsHeadquarter)), rows)
  selectByCountry rows countryISO2 :=
    (.ok (.rows (rows.filter fun e => decide (e.CountryISO2 = countryISO2))), rows)
  insert rows swift :=
    if (rows.any fun e => decide (e.SwiftCode = swift.SwiftCode)) ||
        decide (11 < swift.SwiftCode.length) then
      (some (Errorf "constraint failed"), rows)
    else (none, rows ++ [swift])
  delete rows swiftCode :=
    (.rowsAffected ((rows.filter fun e => decide (e.SwiftCode = swiftCode)).length),
      rows.filter fun e => decide (e.SwiftCode ≠ swiftCode))

/-- The function `decode` of examples: every body decodes to the one request. -/
def decodeAs (req : CreateSwiftCodeRequest) : GoString → Except GoError CreateSwiftCodeRequest :=
  fun _ => .ok req

/-- A request for a code of 12 bytes, not flagged headquarters. -/
def reqTwelve : CreateSwiftCodeRequest :=
  { SwiftCode := str "TESTUS33XXXX"
    BankName := str "Test Bank"
    Address := str "123 Main St"
    CountryISO2 := str "US"
    CountryName := str "United States"
    IsHeadquarter := false }

/-- A request whose code is four letters of two bytes each, not flagged
headquarters. -/
def reqTwoByteLetters : CreateSwiftCodeRequest :=
  { SwiftCode := str "ŁŁŁŁ"
    BankName := str "Test Bank"
    Address := str "123 Main St"
    CountryISO2 := str "PL"
    CountryName := str "Poland"
    IsHeadquarter := false }

/-- A row flagged headquarters whose code has 7 bytes; `CreateSwiftCode`
accepts no such code. -/
def rowShortHeadquarter : SwiftEntity :=
  { SwiftCode := str "SHORTHQ"
    BankName := str "Test Bank"
    Address := str "123 Main St"
    CountryISO2 := str "US"
    CountryName := str "UNITED STATES"
    IsHeadquarter := true }

/-! ## Auxiliary facts -/

theorem str_XXX : str "XXX" = [88, 88, 88] := by decide

theorem isHQ_iff (swiftCode : GoString) :
    isHQ swiftCode = true ↔ swiftCode.length = 11 ∧ swiftCode.drop 8 = str "XXX" := by
  simp [isHQ]

theorem appendBranches_eq (unicodeUpper : GoString → GoString)
    (acc : List SwiftCodeBranch) (branches : List SwiftEntity) :
    appendBranches unicodeUpper acc branches =
      acc ++ (branches.filter fun b => !b.IsHeadquarter).map (toBranch unicodeUpper) := by
  induction branches generalizing acc with
  | nil => simp [appendBranches]
  | cons b rest ih =>
    cases hb : b.IsHeadquarter <;> simp [appendBranches, hb, ih]

theorem appendMinimal_eq (acc : List SwiftCodeMinimalResponse) (entities : List SwiftEntity) :
    appendMinimal acc entities = acc ++ entities.map toMinimal := by
  induction entities generalizing acc with
  | nil => simp [appendMinimal]
  | cons entity rest ih => simp [appendMinimal, ih]

theorem HasPrefix_append (pfx code : GoString) : HasPrefix (pfx ++ code) pfx = true := by
  simp [HasPrefix]

theorem TrimPrefix_append (pfx code : GoString) : TrimPrefix (pfx ++ code) pfx = code := by
  simp [TrimPrefix, HasPrefix]

theorem bne_eq_false_iff_eq (a b : Bool) : ((a != b) = true) ↔ b ≠ a := by
  cases a <;> cases b <;> simp

theorem CreateSwiftCode_short {σ : Type} (unicodeUpper : GoString → GoString)
    (repo : SwiftCodeRepository σ) (st : σ) (req : CreateSwiftCodeRequest)
    (h1 : req.SwiftCode.length < 8) :
    CreateSwiftCode unicodeUpper repo st req = ⟨some errInvalidFormat, st, []⟩ := by
  simp [CreateSwiftCode, h1]

theorem CreateSwiftCode_noCountry {σ : Type} (unicodeUpper : GoString → GoString)
    (repo : SwiftCodeRepository σ) (st : σ) (req : CreateSwiftCodeRequest)
    (h1 : ¬ req.SwiftCode.length < 8) (h2 : req.CountryISO2 = [] ∨ req.CountryName = []) :
    CreateSwiftCode unicodeUpper repo st req = ⟨some errMissingCountry, st, []⟩ := by
  unfold CreateSwiftCode
  rw [if_neg h1, if_pos h2]

theorem CreateSwiftCode_noBank {σ : Type} (unicodeUpper : GoString → GoString)
    (repo : SwiftCodeRepository σ) (st : σ) (req : CreateSwiftCodeRequest)
    (h1 : ¬ req.SwiftCode.length < 8) (h2 : ¬ (req.CountryISO2 = [] ∨ req.CountryName = []))
    (h3 : req.BankName = [] ∨ req.Address = []) :
    CreateSwiftCode unicodeUpper repo st req = ⟨some errMissingBank, st, []⟩ := by
  unfold CreateSwiftCode
  rw [if_neg h1, if_neg h2, if_pos h3]

theorem CreateSwiftCode_flag {σ : Type} (unicodeUpper : GoString → GoString)
    (repo : SwiftCodeRepository σ) (st : σ) (req : CreateSwiftCodeRequest)
    (h1 : ¬ req.SwiftCode.length < 8) (h2 : ¬ (req.CountryISO2 = [] ∨ req.CountryName = []))
    (h3 : ¬ (req.BankName = [] ∨ req.Address = []))
    (h4 : req.IsHeadquarter ≠ isHQ req.SwiftCode) :
    CreateSwiftCode unicodeUpper repo st req = ⟨some errInconsistentFlag, st, []⟩ := by
  unfold CreateSwiftCode
  rw [if_neg h1, if_neg h2, if_neg h3, if_pos ((bne_eq_false_iff_eq _ _).2 h4)]

theorem CreateSwiftCode_valid {σ : Type} (unicodeUpper : GoString → GoString)
    (repo : SwiftCodeRepository σ) (st : σ) (req : CreateSwiftCodeRequest)
    (h1 : ¬ req.SwiftCode.length < 8) (h2 : ¬ (req.CountryISO2 = [] ∨ req.CountryName = []))
    (h3 : ¬ (req.BankName = [] ∨ req.Address = []))
    (h4 : req.IsHeadquarter = isHQ req.SwiftCode) :
    CreateSwiftCode unicodeUpper repo st req =
      ⟨((repo.Create st (newEntity unicodeUpper req)).1).map
          (ErrorfW "failed to create SWIFT code: "),
        (repo.Create st (newEntity unicodeUpper req)).2,
        [.Create (newEntity unicodeUpper req)]⟩ := by
  unfold CreateSwiftCode
  rw [if_neg h1, if_neg h2, if_neg h3,
    if_neg (fun h => (bne_eq_false_iff_eq _ _).1 h h4)]
  rcases hc : repo.Create st (newEntity unicodeUpper req) with ⟨r, st1⟩
  cases r <;> simp [hc]

theorem asciiUpper_all_ascii (s : GoString) (h : (s.all fun c => decide (c < 128)) = true) :
    ((asciiUpper s).all fun c => decide (c < 128)) = true := by
  simp only [asciiUpper, List.all_eq_true, List.mem_map, decide_eq_true_eq] at *
  rintro x ⟨c, hc, rfl⟩
  have := h c hc
  split <;> omega

theorem asciiUpper_no_lower (s : GoString) :
    ((asciiUpper s).any fun c => decide (97 ≤ c ∧ c ≤ 122)) = false := by
  rw [Bool.eq_false_iff]
  simp only [asciiUpper, ne_eq, List.any_eq_true, List.mem_map, decide_eq_true_eq, not_exists,
    not_and]
  rintro x ⟨c, _, rfl⟩
  split <;> omega

theorem ToUpper_ascii_lower (unicodeUpper : GoString → GoString) (s : GoString)
    (ha : (s.all fun c => decide (c < 128)) = true)
    (hl : (s.any fun c => decide (97 ≤ c ∧ c ≤ 122)) = true) :
    ToUpper unicodeUpper s = asciiUpper s := by
  show (if (s.all fun c => decide (c < 128)) = true then
      if (!(s.any fun c => decide (97 ≤ c ∧ c ≤ 122))) = true then s else asciiUpper s
    else unicodeUpper s) = asciiUpper s
  rw [if_pos ha, hl]
  rfl

theorem ToUpper_ascii_upper (unicodeUpper : GoString → GoString) (s : GoString)
    (ha : (s.all fun c => decide (c < 128)) = true)
    (hl : (s.any fun c => decide (97 ≤ c ∧ c ≤ 122)) = false) :
    ToUpper unicodeUpper s = s := by
  show (if (s.all fun c => decide (c < 128)) = true then
      if (!(s.any fun c => decide (97 ≤ c ∧ c ≤ 122))) = true then s else asciiUpper s
    else unicodeUpper s) = s
  rw [if_pos ha, hl]
  rfl

theorem ToUpper_not_ascii (unicodeUpper : GoString → GoString) (s : GoString)
    (ha : ¬ (s.all fun c => decide (c < 128)) = true) :
    ToUpper unicodeUpper s = unicodeUpper s := by
  show (if (s.all fun c => decide (c < 128)) = true then
      if (!(s.any fun c => decide (97 ≤ c ∧ c ≤ 122))) = true then s else asciiUpper s
    else unicodeUpper s) = unicodeUpper s
  rw [if_neg ha]

theorem ToUpper_noUnicode_idem (s : GoString) :
    ToUpper noUnicode (ToUpper noUnicode s) = ToUpper noUnicode s := by
  by_cases ha : (s.all fun c => decide (c < 128)) = true
  · cases hl : (s.any fun c => decide (97 ≤ c ∧ c ≤ 122))
    · rw [ToUpper_ascii_upper noUnicode s ha hl, ToUpper_ascii_upper noUnicode s ha hl]
    · rw [ToUpper_ascii_lower noUnicode s ha hl]
      exact ToUpper_ascii_upper noUnicode _ (asciiUpper_all_ascii s ha) (asciiUpper_no_lower s)
  · have h1 : ToUpper noUnicode s = s := ToUpper_not_ascii noUnicode s ha
    rw [h1, h1]

theorem memoryRepo_find_inserted (rows rows1 : List SwiftEntity) (e : SwiftEntity)
    (h : memoryRepo.Create rows e = (none, rows1)) :
    (memoryRepo.GetBySwiftCode rows1 e.SwiftCode).1 = .ok (some e) := by
  simp only [memoryRepo] at h ⊢
  split at h
  · simp at h
  · rename_i hany
    simp only [Prod.mk.injEq, true_and] at h
    subst h
    have hnone : rows.find? (fun x => decide (x.SwiftCode = e.SwiftCode)) = none := by
      simp only [List.find?_eq_none]
      intro x hx hxe
      exact hany (List.any_eq_true.2 ⟨x, hx, hxe⟩)
    simp [List.find?_append, hnone]

theorem CreateSwiftCode_accepted {σ : Type} (unicodeUpper : GoString → GoString)
    (repo : SwiftCodeRepository σ) (st : σ) (req : CreateSwiftCodeRequest)
    (hacc : (CreateSwiftCode unicodeUpper repo st req).ret = none) :
    ¬ req.SwiftCode.length < 8 ∧ ¬ (req.CountryISO2 = [] ∨ req.CountryName = []) ∧
      ¬ (req.BankName = [] ∨ req.Address = []) ∧ req.IsHeadquarter = isHQ req.SwiftCode := by
  by_cases h1 : req.SwiftCode.length < 8
  · rw [CreateSwiftCode_short unicodeUpper repo st req h1] at hacc
    simp at hacc
  by_cases h2 : req.CountryISO2 = [] ∨ req.CountryName = []
  · rw [CreateSwiftCode_noCountry unicodeUpper repo st req h1 h2] at hacc
    simp at hacc
  by_cases h3 : req.BankName = [] ∨ req.Address = []
  · rw [CreateSwiftCode_noBank unicodeUpper repo st req h1 h2 h3] at hacc
    simp at hacc
  by_cases h4 : req.IsHeadquarter = isHQ req.SwiftCode
  · exact ⟨h1, h2, h3, h4⟩
  · rw [CreateSwiftCode_flag unicodeUpper repo st req h1 h2 h3 h4] at hacc
    simp at hacc

theorem GetSwiftCodeDetails_branch {σ : Type} (unicodeUpper : GoString → GoString)
    (repo : SwiftCodeRepository σ) (st st1 : σ) (swiftCode : GoString) (e : SwiftEntity)
    (hfind : repo.GetBySwiftCode st swiftCode = (.ok (some e), st1))
    (hq : e.IsHeadquarter = false) :
    GetSwiftCodeDetails unicodeUpper repo st swiftCode =
      ⟨.value (some
          { Address := e.Address
            BankName := e.BankName
            CountryISO2 := ToUpper unicodeUpper e.CountryISO2
            CountryName := ToUpper unicodeUpper e.CountryName
            IsHeadquarter := e.IsHeadquarter
            SwiftCode := e.SwiftCode
            Branches := [] }), st1, [.GetBySwiftCode swiftCode]⟩ := by
  simp [GetSwiftCodeDetails, hfind, hq]

theorem GetSwiftCodeDetails_headquarter {σ : Type} (unicodeUpper : GoString → GoString)
    (repo : SwiftCodeRepository σ) (st st1 st2 : σ) (swiftCode : GoString) (e : SwiftEntity)
    (branches : List SwiftEntity)
    (hfind : repo.GetBySwiftCode st swiftCode = (.ok (some e), st1))
    (hq : e.IsHeadquarter = true) (hlen : 8 ≤ e.SwiftCode.length)
    (hbr : repo.GetBranchesByHqSwiftCode st1 (e.SwiftCode.take 8) = (.ok branches, st2)) :
    GetSwiftCodeDetails unicodeUpper repo st swiftCode =
      ⟨.value (some
          { Address := e.Address
            BankName := e.BankName
            CountryISO2 := ToUpper unicodeUpper e.CountryISO2
            CountryName := ToUpper unicodeUpper e.CountryName
            IsHeadquarter := e.IsHeadquarter
            SwiftCode := e.SwiftCode
            Branches := (branches.filter fun b => !b.IsHeadquarter).map
              (toBranch unicodeUpper) }), st2,
        [.GetBySwiftCode swiftCode, .GetBranchesByHqSwiftCode (e.SwiftCode.take 8)]⟩ := by
  have h8 : ¬ e.SwiftCode.length < 8 := by omega
  simp [GetSwiftCodeDetails, hfind, hq, h8, hbr, appendBranches_eq]

theorem GetSwiftCodeDetails_branch_error {σ : Type} (unicodeUpper : GoString → GoString)
    (repo : SwiftCodeRepository σ) (st st1 st2 : σ) (swiftCode : GoString) (e : SwiftEntity)
    (err : GoError)
    (hfind : repo.GetBySwiftCode st swiftCode = (.ok (some e), st1))
    (hq : e.IsHeadquarter = true) (hlen : 8 ≤ e.SwiftCode.length)
    (hbr : repo.GetBranchesByHqSwiftCode st1 (e.SwiftCode.take 8) = (.error err, st2)) :
    GetSwiftCodeDetails unicodeUpper repo st swiftCode =
      ⟨.error err, st2,
        [.GetBySwiftCode swiftCode, .GetBranchesByHqSwiftCode (e.SwiftCode.take 8)]⟩ := by
  have h8 : ¬ e.SwiftCode.length < 8 := by omega
  simp [GetSwiftCodeDetails, hfind, hq, h8, hbr]

theorem GetSwiftCodeDetails_short {σ : Type} (unicodeUpper : GoString → GoString)
    (repo : SwiftCodeRepository σ) (st st1 : σ) (swiftCode : GoString) (e : SwiftEntity)
    (hfind : repo.GetBySwiftCode st swiftCode = (.ok (some e), st1))
    (hq : e.IsHeadquarter = true) (hlen : e.SwiftCode.length < 8) :
    GetSwiftCodeDetails unicodeUpper repo st swiftCode =
      ⟨.panic "slice bounds out of range", st1, [.GetBySwiftCode swiftCode]⟩ := by
  simp [GetSwiftCodeDetails, hfind, hq, hlen]

theorem GetSwiftCodeHandler_found {σ : Type} (unicodeUpper : GoString → GoString)
    (repo : SwiftCodeRepository σ) (st : σ) (r : Request) (swiftCode : GoString)
    (result : SwiftCodeResponse)
    (hpath : r.Path = str "/api/v1/swift-codes/" ++ swiftCode) (hne : swiftCode ≠ [])
    (hret : (GetSwiftCodeDetails unicodeUpper repo st swiftCode).ret = .value (some result)) :
    (GetSwiftCodeHandler unicodeUpper repo st r).ret =
      .response
        { Code := StatusOK
          Header := [("Content-Type", "application/json")]
          Body := .json (encodeSwiftCodeResponse result) } := by
  unfold GetSwiftCodeHandler
  simp only [hpath, HasPrefix_append, TrimPrefix_append, hne, hret, Bool.not_true, if_false,
    Bool.false_eq_true]

theorem GetSwiftCodeHandler_absent {σ : Type} (unicodeUpper : GoString → GoString)
    (repo : SwiftCodeRepository σ) (st : σ) (r : Request) (swiftCode : GoString)
    (hpath : r.Path = str "/api/v1/swift-codes/" ++ swiftCode)
    (hret : (GetSwiftCodeDetails unicodeUpper repo st swiftCode).ret = .value none) :
    (GetSwiftCodeHandler unicodeUpper repo st r).ret.code = some StatusNotFound := by
  unfold GetSwiftCodeHandler
  by_cases hne : swiftCode = []
  · simp only [hpath, HasPrefix_append, TrimPrefix_append, hne, Bool.not_true, if_false,
      Bool.false_eq_true, if_true]
    rfl
  · simp only [hpath, HasPrefix_append, TrimPrefix_append, hne, hret, Bool.not_true, if_false,
      Bool.false_eq_true]
    rfl

theorem encode_has_branches (result : SwiftCodeResponse) :
    ((encodeSwiftCodeResponse result).member "branches").isSome = true ↔
      result.Branches ≠ [] := by
  unfold encodeSwiftCodeResponse Json.member
  by_cases h : result.Branches.length = 0
  · have h0 : result.Branches = [] := List.length_eq_zero.1 h
    rw [h0]
    simp only [ne_eq, not_true_eq_false, iff_false]
    intro hh
    exact absurd (show false = true from hh) (by decide)
  · have h0 : result.Branches ≠ [] := fun hh => h (by rw [hh]; rfl)
    simp only [h, if_false, ne_eq, h0, not_false_eq_true, iff_true]
    rfl

/-! ## Validation in `CreateSwiftCode` and `DeleteSwiftCode` -/

/-- C1: for every code of fewer than 8 bytes, whatever the other fields of the
request, `CreateSwiftCode` and `DeleteSwiftCode` both return the error
"invalid SWIFT code: must be at least 8 characters", make no repository call
and leave the store as it was. -/
theorem short_code_rejected {σ : Type} (unicodeUpper : GoString → GoString)
    (repo : SwiftCodeRepository σ) (st : σ) (req : CreateSwiftCodeRequest)
    (hlen : req.SwiftCode.length < 8) :
    (CreateSwiftCode unicodeUpper repo st req).ret =
        some (Errorf "invalid SWIFT code: must be at least 8 characters") ∧
      (CreateSwiftCode unicodeUpper repo st req).calls = [] ∧
      (CreateSwiftCode unicodeUpper repo st req).store = st ∧
      (DeleteSwiftCode repo st req.SwiftCode).ret =
        some (Errorf "invalid SWIFT code: must be at least 8 characters") ∧
      (DeleteSwiftCode repo st req.SwiftCode).calls = [] ∧
      (DeleteSwiftCode repo st req.SwiftCode).store = st := by
  simp [CreateSwiftCode, DeleteSwiftCode, hlen, errInvalidFormat]

/-- Witness of C1 at the request of `TestCreateSwiftCodeValidationError`. -/
theorem short_code_rejected_witness :
    reqInvalid.SwiftCode.length < 8 ∧
      (CreateSwiftCode noUnicode memoryRepo [rowBranch] reqInvalid).ret =
        some (Errorf "invalid SWIFT code: must be at least 8 characters") ∧
      (DeleteSwiftCode memoryRepo [rowBranch] reqInvalid.SwiftCode).calls = [] :=
  ⟨by decide,
   (short_code_rejected noUnicode memoryRepo [rowBranch] reqInvalid (by decide)).1,
   (short_code_rejected noUnicode memoryRepo [rowBranch] reqInvalid (by decide)).2.2.2.2.1⟩

/-- Counterexample to C2 as stated: the request of
`TestCreateSwiftCodeValidationError` is flagged headquarters although its code
"INVALID" is not a headquarters code, and it is rejected with the error of the
length check, not with the error of the flag check. -/
theorem flag_mismatch_other_error :
    reqInvalid.IsHeadquarter ≠
        (decide (reqInvalid.SwiftCode.length = 11) &&
          decide (reqInvalid.SwiftCode.drop 8 = str "XXX")) ∧
      (CreateSwiftCode noUnicode memoryRepo [] reqInvalid).ret = some errInvalidFormat ∧
      (CreateSwiftCode noUnicode memoryRepo [] reqInvalid).ret ≠ some errInconsistentFlag := by
  decide

/-- C2 (amended): `CreateSwiftCode` calls the repository only when the
request's flag equals `len(swiftCode) == 11 && swiftCode[8:] == "XXX"`, and
every entity it hands to `Create` is flagged headquarters iff its code has
length 11 and ends in "XXX".  A request whose flag disagrees is rejected
without any repository call; the error is the one of the flag check when the
length and the non-empty checks pass. -/
theorem create_flag_consistent {σ : Type} (unicodeUpper : GoString → GoString)
    (repo : SwiftCodeRepository σ) (st : σ) (req : CreateSwiftCodeRequest) :
    ((CreateSwiftCode unicodeUpper repo st req).calls ≠ [] →
        req.IsHeadquarter =
          (decide (req.SwiftCode.length = 11) && decide (req.SwiftCode.drop 8 = str "XXX"))) ∧
      (∀ e, RepoCall.Create e ∈ (CreateSwiftCode unicodeUpper repo st req).calls →
        (e.IsHeadquarter = true ↔
          e.SwiftCode.length = 11 ∧ e.SwiftCode.drop 8 = str "XXX")) ∧
      (req.IsHeadquarter ≠
          (decide (req.SwiftCode.length = 11) && decide (req.SwiftCode.drop 8 = str "XXX")) →
        (CreateSwiftCode unicodeUpper repo st req).ret ≠ none ∧
        (CreateSwiftCode unicodeUpper repo st req).calls = [] ∧
        (CreateSwiftCode unicodeUpper repo st req).store = st ∧
        (8 ≤ req.SwiftCode.length → req.CountryISO2 ≠ [] → req.CountryName ≠ [] →
          req.BankName ≠ [] → req.Address ≠ [] →
          (CreateSwiftCode unicodeUpper repo st req).ret =
            some (Errorf "SWIFT code does not match the provided isHeadquarter value"))) := by
  by_cases h1 : req.SwiftCode.length < 8
  · rw [CreateSwiftCode_short unicodeUpper repo st req h1]
    exact ⟨fun h => absurd rfl h, fun e he => by simp at he,
      fun _ => ⟨by simp, rfl, rfl, fun h => absurd h (by omega)⟩⟩
  by_cases h2 : req.CountryISO2 = [] ∨ req.CountryName = []
  · rw [CreateSwiftCode_noCountry unicodeUpper repo st req h1 h2]
    exact ⟨fun h => absurd rfl h, fun e he => by simp at he,
      fun _ => ⟨by simp, rfl, rfl, fun _ ha hb => absurd h2 (by simp [ha, hb])⟩⟩
  by_cases h3 : req.BankName = [] ∨ req.Address = []
  · rw [CreateSwiftCode_noBank unicodeUpper repo st req h1 h2 h3]
    exact ⟨fun h => absurd rfl h, fun e he => by simp at he,
      fun _ => ⟨by simp, rfl, rfl, fun _ _ _ ha hb => absurd h3 (by simp [ha, hb])⟩⟩
  by_cases h4 : req.IsHeadquarter = isHQ req.SwiftCode
  · rw [CreateSwiftCode_valid unicodeUpper repo st req h1 h2 h3 h4]
    refine ⟨fun _ => h4, ?_, fun hne => absurd h4 hne⟩
    intro e he
    have hee : e = newEntity unicodeUpper req := by simpa using he
    subst hee
    simp only [newEntity]
    rw [h4]
    exact isHQ_iff req.SwiftCode
  · rw [CreateSwiftCode_flag unicodeUpper repo st req h1 h2 h3 h4]
    exact ⟨fun h => absurd rfl h, fun e he => by simp at he,
      fun _ => ⟨by simp, rfl, rfl, fun _ _ _ _ _ => rfl⟩⟩

/-- Witness of C2 (amended) at the request of `TestCreateSwiftCode`, whose
flag agrees with its code: the entity handed to the repository is flagged
headquarters and its code has length 11 and ends in "XXX". -/
theorem create_flag_consistent_witness :
    RepoCall.Create (newEntity noUnicode reqTestBank) ∈
        (CreateSwiftCode noUnicode memoryRepo [] reqTestBank).calls ∧
      ((newEntity noUnicode reqTestBank).IsHeadquarter = true ↔
        (newEntity noUnicode reqTestBank).SwiftCode.length = 11 ∧
          (newEntity noUnicode reqTestBank).SwiftCode.drop 8 = str "XXX") :=
  ⟨by decide,
   (create_flag_consistent noUnicode memoryRepo [] reqTestBank).2.1
     (newEntity noUnicode reqTestBank) (by decide)⟩

/-- C3: a request that passes the four checks makes `CreateSwiftCode` call the
repository exactly once, with `Create` on an entity whose swiftCode, bankName,
address and isHeadquarter are the request's and whose countryISO2 and
countryName are the request's values upper-cased; the store is left as that
call of `Create` leaves it, and the result is the error `Create` returns,
wrapped as "failed to create SWIFT code: ...", or nil when `Create` returns
nil. -/
theorem create_hands_upper_cased_entity {σ : Type} (unicodeUpper : GoString → GoString)
    (repo : SwiftCodeRepository σ) (st : σ) (req : CreateSwiftCodeRequest)
    (hlen : 8 ≤ req.SwiftCode.length)
    (hcountry : req.CountryISO2 ≠ [] ∧ req.CountryName ≠ [])
    (hbank : req.BankName ≠ [] ∧ req.Address ≠ [])
    (hflag : req.IsHeadquarter =
      (decide (req.SwiftCode.length = 11) && decide (req.SwiftCode.drop 8 = str "XXX"))) :
    ∃ e : SwiftEntity,
      (CreateSwiftCode unicodeUpper repo st req).calls = [RepoCall.Create e] ∧
      (CreateSwiftCode unicodeUpper repo st req).store = (repo.Create st e).2 ∧
      (CreateSwiftCode unicodeUpper repo st req).ret =
        ((repo.Create st e).1).map (ErrorfW "failed to create SWIFT code: ") ∧
      e.SwiftCode = req.SwiftCode ∧
      e.BankName = req.BankName ∧
      e.Address = req.Address ∧
      e.IsHeadquarter = req.IsHeadquarter ∧
      e.CountryISO2 = ToUpper unicodeUpper req.CountryISO2 ∧
      e.CountryName = ToUpper unicodeUpper req.CountryName := by
  have h1 : ¬ req.SwiftCode.length < 8 := by omega
  have h2 : ¬ (req.CountryISO2 = [] ∨ req.CountryName = []) := by
    simp [hcountry.1, hcountry.2]
  have h3 : ¬ (req.BankName = [] ∨ req.Address = []) := by
    simp [hbank.1, hbank.2]
  refine ⟨newEntity unicodeUpper req, ?_, ?_, ?_, rfl, rfl, rfl, rfl, rfl, rfl⟩ <;>
    rw [CreateSwiftCode_valid unicodeUpper repo st req h1 h2 h3 hflag]

/-- Witness of C3: the request with countryISO2 "us" and countryName
"united states" reaches the repository as "US" and "UNITED STATES", and the
in-memory store, empty before, holds that one row afterwards. -/
theorem create_hands_upper_cased_entity_witness :
    ∃ e : SwiftEntity,
      (CreateSwiftCode noUnicode memoryRepo [] reqLowerCase).calls = [RepoCall.Create e] ∧
      (CreateSwiftCode noUnicode memoryRepo [] reqLowerCase).store = [e] ∧
      (CreateSwiftCode noUnicode memoryRepo [] reqLowerCase).ret = none ∧
      e.SwiftCode = str "TESTUS33XXX" ∧
      e.BankName = str "Test Bank" ∧
      e.Address = str "123 Main St" ∧
      e.IsHeadquarter = true ∧
      e.CountryISO2 = str "US" ∧
      e.CountryName = str "UNITED STATES" :=
  (create_hands_upper_cased_entity noUnicode memoryRepo [] reqLowerCase
    (by decide) (by decide) (by decide) (by decide)).imp
    fun e h => ⟨h.1,
      h.2.1.trans (by
        have he : e = newEntity noUnicode reqLowerCase := by
          have hc : (CreateSwiftCode noUnicode memoryRepo [] reqLowerCase).calls =
              [RepoCall.Create (newEntity noUnicode reqLowerCase)] := by decide
          have := hc.symm.trans h.1
          simpa using this.symm
        subst he
        decide),
      by decide,
      h.2.2.2.1, h.2.2.2.2.1, h.2.2.2.2.2.1, h.2.2.2.2.2.2.1,
      h.2.2.2.2.2.2.2.1.trans (by decide), h.2.2.2.2.2.2.2.2.trans (by decide)⟩

/-- C4: the outcome of `CreateSwiftCode` is decided by four checks in order,
the first failing one giving the error: the length of the code, the two
country fields, the name and the address, the headquarters flag.  A request
that passes the four, whatever the bytes of its code, succeeds iff the
repository's `Create` on the entity built from it succeeds. -/
theorem create_checks_in_order {σ : Type} (unicodeUpper : GoString → GoString)
    (repo : SwiftCodeRepository σ) (st : σ) (req : CreateSwiftCodeRequest) :
    (req.SwiftCode.length < 8 →
        (CreateSwiftCode unicodeUpper repo st req).ret =
          some (Errorf "invalid SWIFT code: must be at least 8 characters")) ∧
      (8 ≤ req.SwiftCode.length → (req.CountryISO2 = [] ∨ req.CountryName = []) →
        (CreateSwiftCode unicodeUpper repo st req).ret =
          some (Errorf "countryISO2 and countryName cannot be empty")) ∧
      (8 ≤ req.SwiftCode.length → req.CountryISO2 ≠ [] → req.CountryName ≠ [] →
        (req.BankName = [] ∨ req.Address = []) →
        (CreateSwiftCode unicodeUpper repo st req).ret =
          some (Errorf "bankName and address cannot be empty")) ∧
      (8 ≤ req.SwiftCode.length → req.CountryISO2 ≠ [] → req.CountryName ≠ [] →
        req.BankName ≠ [] → req.Address ≠ [] →
        req.IsHeadquarter ≠
          (decide (req.SwiftCode.length = 11) && decide (req.SwiftCode.drop 8 = str "XXX")) →
        (CreateSwiftCode unicodeUpper repo st req).ret =
          some (Errorf "SWIFT code does not match the provided isHeadquarter value")) ∧
      (8 ≤ req.SwiftCode.length → req.CountryISO2 ≠ [] → req.CountryName ≠ [] →
        req.BankName ≠ [] → req.Address ≠ [] →
        req.IsHeadquarter =
          (decide (req.SwiftCode.length = 11) && decide (req.SwiftCode.drop 8 = str "XXX")) →
        ((CreateSwiftCode unicodeUpper repo st req).ret = none ↔
          (repo.Create st
            { SwiftCode := req.SwiftCode
              BankName := req.BankName
              Address := req.Address
              CountryISO2 := ToUpper unicodeUpper req.CountryISO2
              CountryName := ToUpper unicodeUpper req.CountryName
              IsHeadquarter := req.IsHeadquarter }).1 = none)) := by
  refine ⟨fun h1 => ?_, fun h1 h2 => ?_, fun h1 ha hb h3 => ?_,
    fun h1 ha hb hc hd h4 => ?_, fun h1 ha hb hc hd h4 => ?_⟩
  · rw [CreateSwiftCode_short unicodeUpper repo st req h1]; rfl
  · rw [CreateSwiftCode_noCountry unicodeUpper repo st req (by omega) h2]; rfl
  · rw [CreateSwiftCode_noBank unicodeUpper repo st req (by omega) (by simp [ha, hb]) h3]; rfl
  · rw [CreateSwiftCode_flag unicodeUpper repo st req (by omega) (by simp [ha, hb])
      (by simp [hc, hd]) h4]; rfl
  · rw [CreateSwiftCode_valid unicodeUpper repo st req (by omega) (by simp [ha, hb])
      (by simp [hc, hd]) h4]
    simp [newEntity]

/-- Witness of C4: the request of `TestCreateSwiftCode` passes the four checks
and, the store accepting the row, `CreateSwiftCode` returns no error. -/
theorem create_checks_in_order_witness :
    (CreateSwiftCode noUnicode memoryRepo [] reqTestBank).ret = none :=
  ((create_checks_in_order noUnicode memoryRepo [] reqTestBank).2.2.2.2
    (by decide) (by decide) (by decide) (by decide) (by decide) (by decide)).2 (by decide)

/-! ## Create followed by a lookup -/

/-- Counterexample to C5 as stated: `branchFailRepo` returns by exact code what
was last inserted, and accepts the request of `TestCreateSwiftCode`; the
lookup that follows finds the inserted row, yet `GetSwiftCodeDetails` returns
the error of the branch query and no response. -/
theorem roundtrip_stops_at_branch_query :
    (∀ rows rows1 e, branchFailRepo.Create rows e = (none, rows1) →
        (branchFailRepo.GetBySwiftCode rows1 e.SwiftCode).1 = .ok (some e)) ∧
      (CreateSwiftCode noUnicode branchFailRepo [] reqTestBank).ret = none ∧
      (branchFailRepo.GetBySwiftCode
          (CreateSwiftCode noUnicode branchFailRepo [] reqTestBank).store
          reqTestBank.SwiftCode).1 = .ok (some (newEntity noUnicode reqTestBank)) ∧
      (GetSwiftCodeDetails noUnicode branchFailRepo
          (CreateSwiftCode noUnicode branchFailRepo [] reqTestBank).store
          reqTestBank.SwiftCode).ret =
        .error (Errorf "failed to execute query: connection lost") :=
  ⟨fun rows rows1 e h => memoryRepo_find_inserted rows rows1 e h, rfl, rfl, rfl⟩

/-- C5 (amended): when `CreateSwiftCode` accepts a request, the store then
returns by exact code the entity that was inserted and, for a request flagged
headquarters, the branch query does not fail, the following
`GetSwiftCodeDetails` on the request's code returns a response whose
swiftCode, bankName, address and isHeadquarter are the request's and whose
countryISO2 and countryName are the request's values upper-cased.
Upper-casing twice is taken to be the same as upper-casing once. -/
theorem create_then_details {σ : Type} (unicodeUpper : GoString → GoString)
    (repo : SwiftCodeRepository σ) (st st2 : σ) (req : CreateSwiftCodeRequest)
    (hupper : ∀ s, ToUpper unicodeUpper (ToUpper unicodeUpper s) = ToUpper unicodeUpper s)
    (hacc : (CreateSwiftCode unicodeUpper repo st req).ret = none)
    (hstore : ∀ e, RepoCall.Create e ∈ (CreateSwiftCode unicodeUpper repo st req).calls →
      repo.GetBySwiftCode (CreateSwiftCode unicodeUpper repo st req).store req.SwiftCode =
        (.ok (some e), st2))
    (hbranch : req.IsHeadquarter = true →
      ∃ branches st3,
        repo.GetBranchesByHqSwiftCode st2 (req.SwiftCode.take 8) = (.ok branches, st3)) :
    ∃ r : SwiftCodeResponse,
      (GetSwiftCodeDetails unicodeUpper repo
          (CreateSwiftCode unicodeUpper repo st req).store req.SwiftCode).ret =
        .value (some r) ∧
      r.SwiftCode = req.SwiftCode ∧
      r.BankName = req.BankName ∧
      r.Address = req.Address ∧
      r.IsHeadquarter = req.IsHeadquarter ∧
      r.CountryISO2 = ToUpper unicodeUpper req.CountryISO2 ∧
      r.CountryName = ToUpper unicodeUpper req.CountryName := by
  obtain ⟨h1, h2, h3, h4⟩ := CreateSwiftCode_accepted unicodeUpper repo st req hacc
  have hfind := hstore (newEntity unicodeUpper req) (by
    rw [CreateSwiftCode_valid unicodeUpper repo st req h1 h2 h3 h4]
    simp)
  cases hq : req.IsHeadquarter
  · have hq1 : (newEntity unicodeUpper req).IsHeadquarter = false := hq
    rw [GetSwiftCodeDetails_branch unicodeUpper repo _ st2 req.SwiftCode _ hfind hq1]
    exact ⟨_, rfl, rfl, rfl, rfl, hq1, hupper _, hupper _⟩
  · have hq1 : (newEntity unicodeUpper req).IsHeadquarter = true := hq
    obtain ⟨branches, st3, hbr⟩ := hbranch hq
    have hlen : 8 ≤ (newEntity unicodeUpper req).SwiftCode.length := by
      show 8 ≤ req.SwiftCode.length
      omega
    rw [GetSwiftCodeDetails_headquarter unicodeUpper repo _ st2 st3 req.SwiftCode _ branches
      hfind hq1 hlen hbr]
    exact ⟨_, rfl, rfl, rfl, rfl, hq1, hupper _, hupper _⟩

/-- Witness of C5 (amended): the lower-case headquarters request on the empty
in-memory store; the lookup returns "US" and "UNITED STATES". -/
theorem create_then_details_witness :
    ∃ r : SwiftCodeResponse,
      (GetSwiftCodeDetails noUnicode memoryRepo
          (CreateSwiftCode noUnicode memoryRepo [] reqLowerCase).store
          reqLowerCase.SwiftCode).ret = .value (some r) ∧
      r.SwiftCode = str "TESTUS33XXX" ∧
      r.IsHeadquarter = true ∧
      r.CountryISO2 = str "US" ∧
      r.CountryName = str "UNITED STATES" :=
  (create_then_details noUnicode memoryRepo [] [newEntity noUnicode reqLowerCase] reqLowerCase
    ToUpper_noUnicode_idem (by decide)
    (fun e he => by
      have hee : e = newEntity noUnicode reqLowerCase := by
        have h : (CreateSwiftCode noUnicode memoryRepo [] reqLowerCase).calls =
            [RepoCall.Create (newEntity noUnicode reqLowerCase)] := by decide
        rw [h] at he
        simpa using he
      subst hee
      rfl)
    (fun _ => ⟨[], [newEntity noUnicode reqLowerCase], rfl⟩)).imp
    fun _ h => ⟨h.1, h.2.1, h.2.2.2.2.1, h.2.2.2.2.2.1.trans (by decide),
      h.2.2.2.2.2.2.trans (by decide)⟩

/-! ## Projection in `GetSwiftCodeDetails` -/

/-- C6: for a record found by `GetSwiftCodeDetails`: if it is flagged
headquarters, the branches of the response are the rows the repository returns
for the first 8 bytes of the record's code, without the rows flagged
headquarters, each projected to address, bankName, upper-cased countryISO2,
isHeadquarter and swiftCode, in the repository's order; if it is not flagged
headquarters, the branches are empty and the only repository call is the
lookup by code. -/
theorem details_branches {σ : Type} (unicodeUpper : GoString → GoString)
    (repo : SwiftCodeRepository σ) (st st1 : σ) (swiftCode : GoString) (e : SwiftEntity)
    (hfind : repo.GetBySwiftCode st swiftCode = (.ok (some e), st1)) :
    (e.IsHeadquarter = true → 8 ≤ e.SwiftCode.length →
        ∀ branches st2,
          repo.GetBranchesByHqSwiftCode st1 (e.SwiftCode.take 8) = (.ok branches, st2) →
          ∃ r : SwiftCodeResponse,
            (GetSwiftCodeDetails unicodeUpper repo st swiftCode).ret = .value (some r) ∧
            r.Branches =
              (branches.filter fun b => !b.IsHeadquarter).map (fun b =>
                { Address := b.Address
                  BankName := b.BankName
                  CountryISO2 := ToUpper unicodeUpper b.CountryISO2
                  IsHeadquarter := b.IsHeadquarter
                  SwiftCode := b.SwiftCode }) ∧
            (GetSwiftCodeDetails unicodeUpper repo st swiftCode).calls =
              [.GetBySwiftCode swiftCode, .GetBranchesByHqSwiftCode (e.SwiftCode.take 8)]) ∧
      (e.IsHeadquarter = false →
        ∃ r : SwiftCodeResponse,
          (GetSwiftCodeDetails unicodeUpper repo st swiftCode).ret = .value (some r) ∧
          r.Branches = [] ∧
          (GetSwiftCodeDetails unicodeUpper repo st swiftCode).calls =
            [.GetBySwiftCode swiftCode]) := by
  constructor
  · intro hq hlen branches st2 hbr
    rw [GetSwiftCodeDetails_headquarter unicodeUpper repo st st1 st2 swiftCode e branches
      hfind hq hlen hbr]
    exact ⟨_, rfl, rfl, rfl⟩
  · intro hq
    rw [GetSwiftCodeDetails_branch unicodeUpper repo st st1 swiftCode e hfind hq]
    exact ⟨_, rfl, rfl, rfl⟩

/-- Witness of C6: with the two rows of `TestGetSwiftCodeDetails` in the store,
the details of "TESTUS33XXX" list the branch "TESTUS33ABC" and nothing else. -/
theorem details_branches_witness :
    ∃ r : SwiftCodeResponse,
      (GetSwiftCodeDetails noUnicode memoryRepo [rowHeadquarter, rowBranch]
          (str "TESTUS33XXX")).ret = .value (some r) ∧
      r.Branches =
        [{ Address := str "456 Branch St"
           BankName := str "Test Branch"
           CountryISO2 := str "US"
           IsHeadquarter := false
           SwiftCode := str "TESTUS33ABC" }] ∧
      (GetSwiftCodeDetails noUnicode memoryRepo [rowHeadquarter, rowBranch]
          (str "TESTUS33XXX")).calls =
        [.GetBySwiftCode (str "TESTUS33XXX"), .GetBranchesByHqSwiftCode (str "TESTUS33")] :=
  ((details_branches noUnicode memoryRepo [rowHeadquarter, rowBranch]
      [rowHeadquarter, rowBranch] (str "TESTUS33XXX") rowHeadquarter rfl).1
    rfl (by decide) [rowBranch] [rowHeadquarter, rowBranch] rfl).imp
    fun _ h => ⟨h.1, h.2.1.trans (by decide), h.2.2.trans (by decide)⟩

/-- C7: for a record found by `GetSwiftCodeDetails`, every response returned
has the stored countryISO2 and countryName upper-cased and the stored address,
bankName, isHeadquarter and swiftCode unchanged; and a response is returned
whenever the record is not flagged headquarters or its branch query
succeeds. -/
theorem details_upper_cases_country {σ : Type} (unicodeUpper : GoString → GoString)
    (repo : SwiftCodeRepository σ) (st st1 : σ) (swiftCode : GoString) (e : SwiftEntity)
    (hfind : repo.GetBySwiftCode st swiftCode = (.ok (some e), st1)) :
    (∀ r : SwiftCodeResponse,
        (GetSwiftCodeDetails unicodeUpper repo st swiftCode).ret = .value (some r) →
        r.CountryISO2 = ToUpper unicodeUpper e.CountryISO2 ∧
        r.CountryName = ToUpper unicodeUpper e.CountryName ∧
        r.Address = e.Address ∧
        r.BankName = e.BankName ∧
        r.IsHeadquarter = e.IsHeadquarter ∧
        r.SwiftCode = e.SwiftCode) ∧
      ((e.IsHeadquarter = false ∨
          (8 ≤ e.SwiftCode.length ∧
            ∃ branches st2,
              repo.GetBranchesByHqSwiftCode st1 (e.SwiftCode.take 8) = (.ok branches, st2))) →
        ∃ r : SwiftCodeResponse,
          (GetSwiftCodeDetails unicodeUpper repo st swiftCode).ret = .value (some r)) := by
  constructor
  · intro r hr
    cases hq : e.IsHeadquarter
    · rw [GetSwiftCodeDetails_branch unicodeUpper repo st st1 swiftCode e hfind hq] at hr
      simp only [GoResult.value.injEq, Option.some.injEq] at hr
      subst hr
      exact ⟨rfl, rfl, rfl, rfl, hq, rfl⟩
    · by_cases hlen : e.SwiftCode.length < 8
      · rw [GetSwiftCodeDetails_short unicodeUpper repo st st1 swiftCode e hfind hq hlen] at hr
        simp at hr
      · rcases hbr : repo.GetBranchesByHqSwiftCode st1 (e.SwiftCode.take 8) with ⟨res, st2⟩
        cases res with
        | error err =>
          rw [GetSwiftCodeDetails_branch_error unicodeUpper repo st st1 st2 swiftCode e err
            hfind hq (by omega) hbr] at hr
          simp at hr
        | ok branches =>
          rw [GetSwiftCodeDetails_headquarter unicodeUpper repo st st1 st2 swiftCode e branches
            hfind hq (by omega) hbr] at hr
          simp only [GoResult.value.injEq, Option.some.injEq] at hr
          subst hr
          exact ⟨rfl, rfl, rfl, rfl, hq, rfl⟩
  · intro h
    cases hq : e.IsHeadquarter
    · rw [GetSwiftCodeDetails_branch unicodeUpper repo st st1 swiftCode e hfind hq]
      exact ⟨_, rfl⟩
    · rcases h with h | ⟨hlen, branches, st2, hbr⟩
      · rw [hq] at h
        exact absurd h (by decide)
      · rw [GetSwiftCodeDetails_headquarter unicodeUpper repo st st1 st2 swiftCode e branches
          hfind hq hlen hbr]
        exact ⟨_, rfl⟩

/-- Witness of C7: the stored countryName "United States" of the row of
`TestGetSwiftCodeDetails` is returned as "UNITED STATES". -/
theorem details_upper_cases_country_witness :
    (GetSwiftCodeDetails noUnicode memoryRepo [rowHeadquarter, rowBranch]
        (str "TESTUS33XXX")).ret = .value (some respHeadquarter) ∧
      respHeadquarter.CountryName = ToUpper noUnicode rowHeadquarter.CountryName ∧
      rowHeadquarter.CountryName = str "United States" ∧
      respHeadquarter.CountryName = str "UNITED STATES" :=
  ⟨by decide,
   ((details_upper_cases_country noUnicode memoryRepo [rowHeadquarter, rowBranch]
      [rowHeadquarter, rowBranch] (str "TESTUS33XXX") rowHeadquarter rfl).1 respHeadquarter
      (by decide)).2.1,
   rfl, rfl⟩

/-! ## The body written by `GetSwiftCodeHandler` -/

/-- Counterexample to C8 as stated: with the two rows of
`TestGetSwiftCodeDetails` in the store, the request for the branch
"TESTUS33ABC" is answered 200 with a JSON object that has the member
"swiftCode" and no member "branches"; with the headquarters row alone in the
store, so is the request for "TESTUS33XXX". -/
theorem details_body_without_branches :
    ((GetSwiftCodeHandler noUnicode memoryRepo [rowHeadquarter, rowBranch]
        ⟨"GET", str "/api/v1/swift-codes/TESTUS33ABC", []⟩).ret.code = some 200 ∧
      ∃ doc,
        (GetSwiftCodeHandler noUnicode memoryRepo [rowHeadquarter, rowBranch]
          ⟨"GET", str "/api/v1/swift-codes/TESTUS33ABC", []⟩).ret.jsonBody = some doc ∧
        (doc.member "swiftCode").isSome = true ∧
        (doc.member "branches").isSome = false) ∧
    ((GetSwiftCodeHandler noUnicode memoryRepo [rowHeadquarter]
        ⟨"GET", str "/api/v1/swift-codes/TESTUS33XXX", []⟩).ret.code = some 200 ∧
      ∃ doc,
        (GetSwiftCodeHandler noUnicode memoryRepo [rowHeadquarter]
          ⟨"GET", str "/api/v1/swift-codes/TESTUS33XXX", []⟩).ret.jsonBody = some doc ∧
        (doc.member "swiftCode").isSome = true ∧
        (doc.member "branches").isSome = false) :=
  ⟨⟨rfl, _, rfl, rfl, rfl⟩, ⟨rfl, _, rfl, rfl, rfl⟩⟩

/-- C8 (amended): for a SWIFT code found, the body written by
`GetSwiftCodeHandler` is a JSON object in which the member "branches" is
absent when the record is not flagged headquarters, and, for a record flagged
headquarters whose branch query succeeds, present iff the repository returned
at least one row not flagged headquarters. -/
theorem details_body_branches {σ : Type} (unicodeUpper : GoString → GoString)
    (repo : SwiftCodeRepository σ) (st st1 : σ) (r : Request) (swiftCode : GoString)
    (e : SwiftEntity)
    (hpath : r.Path = str "/api/v1/swift-codes/" ++ swiftCode) (hne : swiftCode ≠ [])
    (hfind : repo.GetBySwiftCode st swiftCode = (.ok (some e), st1)) :
    (e.IsHeadquarter = false →
        (GetSwiftCodeHandler unicodeUpper repo st r).ret.code = some 200 ∧
        ∃ doc,
          (GetSwiftCodeHandler unicodeUpper repo st r).ret.jsonBody = some doc ∧
          (doc.member "branches").isSome = false) ∧
      (e.IsHeadquarter = true → 8 ≤ e.SwiftCode.length →
        ∀ branches st2,
          repo.GetBranchesByHqSwiftCode st1 (e.SwiftCode.take 8) = (.ok branches, st2) →
          (GetSwiftCodeHandler unicodeUpper repo st r).ret.code = some 200 ∧
          ∃ doc,
            (GetSwiftCodeHandler unicodeUpper repo st r).ret.jsonBody = some doc ∧
            ((doc.member "branches").isSome = true ↔
              ∃ b ∈ branches, b.IsHeadquarter = false)) := by
  constructor
  · intro hq
    have hret := congrArg Run.ret
      (GetSwiftCodeDetails_branch unicodeUpper repo st st1 swiftCode e hfind hq)
    rw [GetSwiftCodeHandler_found unicodeUpper repo st r swiftCode _ hpath hne hret]
    refine ⟨rfl, _, rfl, ?_⟩
    rw [Bool.eq_false_iff, ne_eq, encode_has_branches]
    simp
  · intro hq hlen branches st2 hbr
    have hret := congrArg Run.ret
      (GetSwiftCodeDetails_headquarter unicodeUpper repo st st1 st2 swiftCode e branches
        hfind hq hlen hbr)
    rw [GetSwiftCodeHandler_found unicodeUpper repo st r swiftCode _ hpath hne hret]
    refine ⟨rfl, _, rfl, ?_⟩
    rw [encode_has_branches]
    simp [List.filter_eq_nil_iff]

/-- Witness of C8 (amended): with the two rows of `TestGetSwiftCodeDetails` in
the store, the body for the headquarters "TESTUS33XXX" has the member
"branches". -/
theorem details_body_branches_witness :
    ∃ doc,
      (GetSwiftCodeHandler noUnicode memoryRepo [rowHeadquarter, rowBranch]
        ⟨"GET", str "/api/v1/swift-codes/TESTUS33XXX", []⟩).ret.jsonBody = some doc ∧
      (doc.member "branches").isSome = true :=
  (((details_body_branches noUnicode memoryRepo [rowHeadquarter, rowBranch]
      [rowHeadquarter, rowBranch] ⟨"GET", str "/api/v1/swift-codes/TESTUS33XXX", []⟩
      (str "TESTUS33XXX") rowHeadquarter (by decide) (by decide) rfl).2
    rfl (by decide) [rowBranch] [rowHeadquarter, rowBranch] rfl).2).imp
    fun _ h => ⟨h.1, h.2.2 ⟨rowBranch, by decide, rfl⟩⟩

/-! ## A code that is not in the store -/

/-- C9: when the repository returns no record and no error for a code,
`GetSwiftCodeDetails` returns a nil response and a nil error after that one
lookup, without a branch query, and `GetSwiftCodeHandler` answers the request
for that code with status 404. -/
theorem missing_code_not_found {σ : Type} (unicodeUpper : GoString → GoString)
    (repo : SwiftCodeRepository σ) (st st1 : σ) (r : Request) (swiftCode : GoString)
    (hpath : r.Path = str "/api/v1/swift-codes/" ++ swiftCode)
    (hmiss : repo.GetBySwiftCode st swiftCode = (.ok none, st1)) :
    (GetSwiftCodeDetails unicodeUpper repo st swiftCode).ret = .value none ∧
      (GetSwiftCodeDetails unicodeUpper repo st swiftCode).calls =
        [.GetBySwiftCode swiftCode] ∧
      (GetSwiftCodeHandler unicodeUpper repo st r).ret.code = some 404 := by
  have hrun : GetSwiftCodeDetails unicodeUpper repo st swiftCode =
      ⟨.value none, st1, [.GetBySwiftCode swiftCode]⟩ := by
    simp [GetSwiftCodeDetails, hmiss]
  refine ⟨by rw [hrun], by rw [hrun], ?_⟩
  exact GetSwiftCodeHandler_absent unicodeUpper repo st r swiftCode hpath (by rw [hrun])

/-- Witness of C9: the code "NONEXISTENT" of `TestGetBySwiftCode`, looked up
in a store that holds the headquarters row only. -/
theorem missing_code_not_found_witness :
    (GetSwiftCodeDetails noUnicode memoryRepo [rowHeadquarter] (str "NONEXISTENT")).ret =
        .value none ∧
      (GetSwiftCodeDetails noUnicode memoryRepo [rowHeadquarter] (str "NONEXISTENT")).calls =
        [.GetBySwiftCode (str "NONEXISTENT")] ∧
      (GetSwiftCodeHandler noUnicode memoryRepo [rowHeadquarter]
        ⟨"GET", str "/api/v1/swift-codes/NONEXISTENT", []⟩).ret.code = some 404 :=
  missing_code_not_found noUnicode memoryRepo [rowHeadquarter] [rowHeadquarter]
    ⟨"GET", str "/api/v1/swift-codes/NONEXISTENT", []⟩ (str "NONEXISTENT") (by decide) rfl

/-! ## Listing by country -/

/-- C10: `GetSwiftCodesByCountry` returns a nil response exactly when the
repository returns no records for the parameter (with a nil error exactly
when it returns an empty list and no error); when the repository returns
records, the response has the parameter upper-cased as countryISO2, the
upper-cased countryName of the first record as countryName, and one summary
per record in the repository's order, made of the record's address, bankName,
countryISO2 as stored, isHeadquarter and swiftCode. -/
theorem by_country_response {σ : Type} (unicodeUpper : GoString → GoString)
    (repo : SwiftCodeRepository σ) (st : σ) (countryISO2 : GoString) :
    ((GetSwiftCodesByCountry unicodeUpper repo st countryISO2).ret.toOption.join = none ↔
        (repo.GetByCountry st countryISO2).1.toOption.getD [] = []) ∧
      ((GetSwiftCodesByCountry unicodeUpper repo st countryISO2).ret = .ok none ↔
        (repo.GetByCountry st countryISO2).1 = .ok []) ∧
      (∀ first rest, (repo.GetByCountry st countryISO2).1 = .ok (first :: rest) →
        (GetSwiftCodesByCountry unicodeUpper repo st countryISO2).ret =
          .ok (some
            { CountryISO2 := ToUpper unicodeUpper countryISO2
              CountryName := ToUpper unicodeUpper first.CountryName
              SwiftCodes := (first :: rest).map fun entity =>
                { Address := entity.Address
                  BankName := entity.BankName
                  CountryISO2 := entity.CountryISO2
                  IsHeadquarter := entity.IsHeadquarter
                  SwiftCode := entity.SwiftCode } })) ∧
      (GetSwiftCodesByCountry unicodeUpper repo st countryISO2).calls =
        [.GetByCountry countryISO2] := by
  unfold GetSwiftCodesByCountry
  rcases hq : repo.GetByCountry st countryISO2 with ⟨res, st1⟩
  cases res with
  | error err => simp [Except.toOption]
  | ok entities =>
    cases entities with
    | nil => simp [Except.toOption]
    | cons first rest =>
      simp only [Except.toOption, appendMinimal_eq]
      refine ⟨by simp, by simp, ?_, trivial⟩
      intro f r hfr
      simp only [Except.ok.injEq, List.cons.injEq] at hfr
      obtain ⟨rfl, rfl⟩ := hfr
      rfl

/-- Witness of C10: a store holding the headquarters row of country "US" and
a row stored with countryISO2 "us"; the listing for "us" has countryISO2 "US",
countryName "USA" and the one summary with countryISO2 "us" as stored. -/
theorem by_country_response_witness :
    (GetSwiftCodesByCountry noUnicode memoryRepo [rowHeadquarter, rowLowerCase]
        (str "us")).ret =
      .ok (some
        { CountryISO2 := str "US"
          CountryName := str "USA"
          SwiftCodes :=
            [{ Address := str "9 Side St"
               BankName := str "Second Bank"
               CountryISO2 := str "us"
               IsHeadquarter := false
               SwiftCode := str "BANKUS44" }] }) :=
  ((by_country_response noUnicode memoryRepo [rowHeadquarter, rowLowerCase]
      (str "us")).2.2.1 rowLowerCase [] rfl).trans rfl

/-! ## Status codes of the handlers -/

theorem GetSwiftCodesByCountryHandler_ok {σ : Type} (unicodeUpper : GoString → GoString)
    (repo : SwiftCodeRepository σ) (st : σ) (r : Request) (countryCode : GoString)
    (results : Option SwiftCodesByCountryResponse)
    (hpath : r.Path = str "/api/v1/swift-codes/country/" ++ countryCode)
    (hne : countryCode ≠ [])
    (hret : (GetSwiftCodesByCountry unicodeUpper repo st countryCode).ret = .ok results) :
    (GetSwiftCodesByCountryHandler unicodeUpper repo st r).ret =
      .response
        { Code := StatusOK
          Header := [("Content-Type", "application/json")]
          Body := .json (encodeSwiftCodesByCountryResponse results) } := by
  unfold GetSwiftCodesByCountryHandler
  simp only [hpath, HasPrefix_append, TrimPrefix_append, hne, hret, Bool.not_true, if_false,
    Bool.false_eq_true]

/-- C11, as the code behaves: when the repository returns no records and no
error for a country code, `GetSwiftCodesByCountry` returns a nil response and
a nil error, and `GetSwiftCodesByCountryHandler` answers the request with
status 200 and the JSON body `null`, not with 404. -/
theorem country_without_records_answered_ok {σ : Type} (unicodeUpper : GoString → GoString)
    (repo : SwiftCodeRepository σ) (st st1 : σ) (r : Request) (countryCode : GoString)
    (hpath : r.Path = str "/api/v1/swift-codes/country/" ++ countryCode)
    (hne : countryCode ≠ [])
    (hempty : repo.GetByCountry st countryCode = (.ok [], st1)) :
    (GetSwiftCodesByCountry unicodeUpper repo st countryCode).ret = .ok none ∧
      (GetSwiftCodesByCountryHandler unicodeUpper repo st r).ret.code = some 200 ∧
      (GetSwiftCodesByCountryHandler unicodeUpper repo st r).ret.code ≠ some 404 ∧
      (GetSwiftCodesByCountryHandler unicodeUpper repo st r).ret.jsonBody = some Json.null := by
  have hret : (GetSwiftCodesByCountry unicodeUpper repo st countryCode).ret = .ok none := by
    simp [GetSwiftCodesByCountry, hempty]
  rw [GetSwiftCodesByCountryHandler_ok unicodeUpper repo st r countryCode none hpath hne hret]
  exact ⟨hret, rfl, by decide, rfl⟩

/-- Evaluation of C11 at a failing input: the store holds one row of country
"US" and the request is for country "ZZ". -/
theorem country_without_records_answered_ok_witness :
    (GetSwiftCodesByCountryHandler noUnicode memoryRepo [rowHeadquarter]
        ⟨"GET", str "/api/v1/swift-codes/country/ZZ", []⟩).ret.code = some 200 ∧
      (GetSwiftCodesByCountryHandler noUnicode memoryRepo [rowHeadquarter]
        ⟨"GET", str "/api/v1/swift-codes/country/ZZ", []⟩).ret.jsonBody = some Json.null :=
  ⟨(country_without_records_answered_ok noUnicode memoryRepo [rowHeadquarter] [rowHeadquarter]
      ⟨"GET", str "/api/v1/swift-codes/country/ZZ", []⟩ (str "ZZ") (by decide) (by decide)
      rfl).2.1,
   (country_without_records_answered_ok noUnicode memoryRepo [rowHeadquarter] [rowHeadquarter]
      ⟨"GET", str "/api/v1/swift-codes/country/ZZ", []⟩ (str "ZZ") (by decide) (by decide)
      rfl).2.2.2⟩

theorem Contains_append_skip (a m t : GoString) (h : Nat) (hh : h ∉ a) :
    Contains (a ++ m) (h :: t) = Contains m (h :: t) := by
  induction a with
  | nil => rfl
  | cons c rest ih =>
    have hc : h ≠ c := fun e => hh (by simp [e])
    have hrest : h ∉ rest := fun e => hh (by simp [e])
    simp [Contains, List.isPrefixOf, hc, ih hrest]

theorem DeleteSwiftCode_long {σ : Type} (repo : SwiftCodeRepository σ) (st : σ)
    (swiftCode : GoString) (hlen : 8 ≤ swiftCode.length) :
    DeleteSwiftCode repo st swiftCode =
      ⟨((repo.Delete st swiftCode).1).map (ErrorfW "failed to delete SWIFT code: "),
        (repo.Delete st swiftCode).2, [.Delete swiftCode]⟩ := by
  have h8 : ¬ swiftCode.length < 8 := by omega
  unfold DeleteSwiftCode
  rw [if_neg h8]
  rcases hd : repo.Delete st swiftCode with ⟨res, st1⟩
  cases res <;> simp [hd]

theorem DeleteSwiftCodeHandler_error {σ : Type} (repo : SwiftCodeRepository σ) (st : σ)
    (r : Request) (swiftCode : GoString) (err : GoError)
    (hmethod : r.Method = "DELETE")
    (hpath : r.Path = str "/api/v1/swift-codes/" ++ swiftCode) (hne : swiftCode ≠ [])
    (hret : (DeleteSwiftCode repo st swiftCode).ret = some err) :
    (DeleteSwiftCodeHandler repo st r).ret.code =
      some (if Contains err.msg (str "no SWIFT code found") = true then 404 else 500) := by
  unfold DeleteSwiftCodeHandler
  simp only [hmethod, hpath, HasPrefix_append, TrimPrefix_append, hne, hret, Bool.not_true,
    if_false, Bool.false_eq_true, ne_eq, not_true_eq_false]
  split <;> rfl

theorem Contains_delete_error (inner : String) (d : GoError)
    (hinner : 110 ∉ str inner) :
    Contains (ErrorfW "failed to delete SWIFT code: " (ErrorfW inner d)).msg
        (str "no SWIFT code found") =
      Contains d.msg (str "no SWIFT code found") := by
  have hsub : str "no SWIFT code found" = 110 :: (str "o SWIFT code found") := by decide
  have houter : 110 ∉ str "failed to delete SWIFT code: " := by decide
  simp only [ErrorfW]
  rw [hsub, Contains_append_skip _ _ _ 110 houter, Contains_append_skip _ _ _ 110 hinner]

/-- Counterexample to C12 as stated: the store's delete fails with an error of
its own, whose text happens to hold the words "no SWIFT code found"; no row
count is involved, yet `DeleteSwiftCodeHandler` answers 404, not 500. -/
theorem delete_failure_answered_not_found :
    ((failingDB (Errorf "replica: no SWIFT code found in cache")).delete ()
        (str "TESTUS33XXX")).1 matches ExecResult.failed _ ∧
      (DeleteSwiftCode
          (MySQLSwiftRepository (failingDB (Errorf "replica: no SWIFT code found in cache"))) ()
          (str "TESTUS33XXX")).ret =
        some (ErrorfW "failed to delete SWIFT code: "
          (ErrorfW "failed to execute delete query: "
            (Errorf "replica: no SWIFT code found in cache"))) ∧
      (DeleteSwiftCodeHandler
          (MySQLSwiftRepository (failingDB (Errorf "replica: no SWIFT code found in cache"))) ()
          ⟨"DELETE", str "/api/v1/swift-codes/TESTUS33XXX", []⟩).ret.code = some 404 := by
  decide

/-- C12 (amended): for a SWIFT code of at least 8 bytes, when the store's
delete affects zero rows the repository's `Delete` fails with "no SWIFT code
found with the given value", `DeleteSwiftCode` returns it wrapped, and
`DeleteSwiftCodeHandler` answers 404; when the store's delete fails for another
reason, `DeleteSwiftCode` returns a different error, the store's own wrapped
twice, and the handler answers 500 unless the text of the store's error holds
"no SWIFT code found", in which case it answers 404. -/
theorem delete_not_found_by_text {δ : Type} (db : SqlDB δ) (st st1 : δ) (r : Request)
    (swiftCode : GoString)
    (hmethod : r.Method = "DELETE")
    (hpath : r.Path = str "/api/v1/swift-codes/" ++ swiftCode)
    (hlen : 8 ≤ swiftCode.length) :
    (db.delete st swiftCode = (.rowsAffected 0, st1) →
        (MySQLSwiftRepository db).Delete st swiftCode =
          (some (Errorf "no SWIFT code found with the given value"), st1) ∧
        (DeleteSwiftCode (MySQLSwiftRepository db) st swiftCode).ret =
          some (ErrorfW "failed to delete SWIFT code: "
            (Errorf "no SWIFT code found with the given value")) ∧
        (DeleteSwiftCodeHandler (MySQLSwiftRepository db) st r).ret.code = some 404) ∧
      (∀ d : GoError, db.delete st swiftCode = (.failed d, st1) →
        (DeleteSwiftCode (MySQLSwiftRepository db) st swiftCode).ret =
          some (ErrorfW "failed to delete SWIFT code: "
            (ErrorfW "failed to execute delete query: " d)) ∧
        (DeleteSwiftCode (MySQLSwiftRepository db) st swiftCode).ret ≠
          some (ErrorfW "failed to delete SWIFT code: "
            (Errorf "no SWIFT code found with the given value")) ∧
        (DeleteSwiftCodeHandler (MySQLSwiftRepository db) st r).ret.code =
          some (if Contains d.msg (str "no SWIFT code found") = true then 404 else 500)) ∧
      (∀ d : GoError, db.delete st swiftCode = (.rowsAffectedFailed d, st1) →
        (DeleteSwiftCode (MySQLSwiftRepository db) st swiftCode).ret =
          some (ErrorfW "failed to delete SWIFT code: "
            (ErrorfW "failed to check rows affected: " d)) ∧
        (DeleteSwiftCode (MySQLSwiftRepository db) st swiftCode).ret ≠
          some (ErrorfW "failed to delete SWIFT code: "
            (Errorf "no SWIFT code found with the given value")) ∧
        (DeleteSwiftCodeHandler (MySQLSwiftRepository db) st r).ret.code =
          some (if Contains d.msg (str "no SWIFT code found") = true then 404 else 500)) := by
  have hne : swiftCode ≠ [] := by
    intro h
    rw [h] at hlen
    simp at hlen
  have hrun := DeleteSwiftCode_long (MySQLSwiftRepository db) st swiftCode hlen
  have hdiff : ∀ (inner : String) (d : GoError), (str inner).head? = some 102 →
      some (ErrorfW "failed to delete SWIFT code: " (ErrorfW inner d)) ≠
        some (ErrorfW "failed to delete SWIFT code: "
          (Errorf "no SWIFT code found with the given value")) := by
    intro inner d hinner heq
    simp only [ErrorfW, Errorf, Option.some.injEq, GoError.mk.injEq,
      List.append_cancel_left_eq] at heq
    have hnf : (str "no SWIFT code found with the given value").head? = some 110 := by decide
    have hhead := congrArg List.head? heq
    rw [hnf] at hhead
    cases hs : str inner with
    | nil => rw [hs] at hinner; simp at hinner
    | cons c rest =>
      rw [hs] at hinner hhead
      simp only [List.head?_cons, Option.some.injEq, List.cons_append] at hinner hhead
      omega
  refine ⟨?_, ?_, ?_⟩
  · intro hzero
    have hrepo : (MySQLSwiftRepository db).Delete st swiftCode =
        (some (Errorf "no SWIFT code found with the given value"), st1) := by
      simp [MySQLSwiftRepository, hzero]
    have hret : (DeleteSwiftCode (MySQLSwiftRepository db) st swiftCode).ret =
        some (ErrorfW "failed to delete SWIFT code: "
          (Errorf "no SWIFT code found with the given value")) := by
      rw [hrun, hrepo]
      rfl
    refine ⟨hrepo, hret, ?_⟩
    rw [DeleteSwiftCodeHandler_error (MySQLSwiftRepository db) st r swiftCode _ hmethod hpath
      hne hret]
    decide
  · intro d hd
    have hret : (DeleteSwiftCode (MySQLSwiftRepository db) st swiftCode).ret =
        some (ErrorfW "failed to delete SWIFT code: "
          (ErrorfW "failed to execute delete query: " d)) := by
      rw [hrun]
      simp [MySQLSwiftRepository, hd]
    refine ⟨hret, ?_, ?_⟩
    · rw [hret]
      exact hdiff _ d (by decide)
    · rw [DeleteSwiftCodeHandler_error (MySQLSwiftRepository db) st r swiftCode _ hmethod
        hpath hne hret, Contains_delete_error _ d (by decide)]
  · intro d hd
    have hret : (DeleteSwiftCode (MySQLSwiftRepository db) st swiftCode).ret =
        some (ErrorfW "failed to delete SWIFT code: "
          (ErrorfW "failed to check rows affected: " d)) := by
      rw [hrun]
      simp [MySQLSwiftRepository, hd]
    refine ⟨hret, ?_, ?_⟩
    · rw [hret]
      exact hdiff _ d (by decide)
    · rw [DeleteSwiftCodeHandler_error (MySQLSwiftRepository db) st r swiftCode _ hmethod
        hpath hne hret, Contains_delete_error _ d (by decide)]

/-- Witness of C12 (amended): deleting "TESTUS33XXX" from the empty table
affects zero rows and is answered 404; on a database that fails with "invalid
connection" it is answered 500. -/
theorem delete_not_found_by_text_witness :
    (DeleteSwiftCodeHandler (MySQLSwiftRepository tableDB) []
        ⟨"DELETE", str "/api/v1/swift-codes/TESTUS33XXX", []⟩).ret.code = some 404 ∧
      (DeleteSwiftCodeHandler (MySQLSwiftRepository (failingDB (Errorf "invalid connection"))) ()
        ⟨"DELETE", str "/api/v1/swift-codes/TESTUS33XXX", []⟩).ret.code = some 500 :=
  ⟨((delete_not_found_by_text tableDB [] []
      ⟨"DELETE", str "/api/v1/swift-codes/TESTUS33XXX", []⟩ (str "TESTUS33XXX")
      rfl (by decide) (by decide)).1 rfl).2.2,
   ((delete_not_found_by_text (failingDB (Errorf "invalid connection")) () ()
      ⟨"DELETE", str "/api/v1/swift-codes/TESTUS33XXX", []⟩ (str "TESTUS33XXX")
      rfl (by decide) (by decide)).2.1 (Errorf "invalid connection") rfl).2.2.trans
      (by decide)⟩

theorem GetSwiftCodeHandler_error {σ : Type} (unicodeUpper : GoString → GoString)
    (repo : SwiftCodeRepository σ) (st : σ) (r : Request) (swiftCode : GoString)
    (err : GoError)
    (hpath : r.Path = str "/api/v1/swift-codes/" ++ swiftCode) (hne : swiftCode ≠ [])
    (hret : (GetSwiftCodeDetails unicodeUpper repo st swiftCode).ret = .error err) :
    (GetSwiftCodeHandler unicodeUpper repo st r).ret =
      .response (httpError (str "SWIFT code not found") StatusNotFound) := by
  unfold GetSwiftCodeHandler
  simp only [hpath, HasPrefix_append, TrimPrefix_append, hne, hret, Bool.not_true, if_false,
    Bool.false_eq_true]

/-- C13, as the code behaves: a single-code GET request whose store lookup,
of the record or of the branches of a headquarters record, fails with a
storage error is answered by `GetSwiftCodeHandler` with status 404 and the
text "SWIFT code not found", not with 500: the very response it writes for a
miss. -/
theorem lookup_error_answered_like_miss {σ : Type} (unicodeUpper : GoString → GoString)
    (repo : SwiftCodeRepository σ) (st st1 : σ) (r : Request) (swiftCode : GoString)
    (hpath : r.Path = str "/api/v1/swift-codes/" ++ swiftCode) (hne : swiftCode ≠ []) :
    (∀ err, repo.GetBySwiftCode st swiftCode = (.error err, st1) →
        (GetSwiftCodeDetails unicodeUpper repo st swiftCode).ret = .error err ∧
        (GetSwiftCodeHandler unicodeUpper repo st r).ret =
          .response (httpError (str "SWIFT code not found") 404) ∧
        (GetSwiftCodeHandler unicodeUpper repo st r).ret.code = some 404 ∧
        (GetSwiftCodeHandler unicodeUpper repo st r).ret.code ≠ some 500 ∧
        (GetSwiftCodeHandler unicodeUpper repo st r).ret.textBody =
          some (str "SWIFT code not found\n")) ∧
      (∀ e err st2, repo.GetBySwiftCode st swiftCode = (.ok (some e), st1) →
        e.IsHeadquarter = true → 8 ≤ e.SwiftCode.length →
        repo.GetBranchesByHqSwiftCode st1 (e.SwiftCode.take 8) = (.error err, st2) →
        (GetSwiftCodeDetails unicodeUpper repo st swiftCode).ret = .error err ∧
        (GetSwiftCodeHandler unicodeUpper repo st r).ret =
          .response (httpError (str "SWIFT code not found") 404) ∧
        (GetSwiftCodeHandler unicodeUpper repo st r).ret.code = some 404 ∧
        (GetSwiftCodeHandler unicodeUpper repo st r).ret.code ≠ some 500 ∧
        (GetSwiftCodeHandler unicodeUpper repo st r).ret.textBody =
          some (str "SWIFT code not found\n")) ∧
      (repo.GetBySwiftCode st swiftCode = (.ok none, st1) →
        (GetSwiftCodeHandler unicodeUpper repo st r).ret =
          .response (httpError (str "SWIFT code not found") 404)) := by
  refine ⟨?_, ?_, ?_⟩
  · intro err hfail
    have hret : (GetSwiftCodeDetails unicodeUpper repo st swiftCode).ret = .error err := by
      simp [GetSwiftCodeDetails, hfail]
    rw [GetSwiftCodeHandler_error unicodeUpper repo st r swiftCode err hpath hne hret]
    exact ⟨hret, rfl, rfl, by decide, by decide⟩
  · intro e err st2 hfind hq hlen hbr
    have hret : (GetSwiftCodeDetails unicodeUpper repo st swiftCode).ret = .error err := by
      rw [GetSwiftCodeDetails_branch_error unicodeUpper repo st st1 st2 swiftCode e err
        hfind hq hlen hbr]
    rw [GetSwiftCodeHandler_error unicodeUpper repo st r swiftCode err hpath hne hret]
    exact ⟨hret, rfl, rfl, by decide, by decide⟩
  · intro hmiss
    have hret : (GetSwiftCodeDetails unicodeUpper repo st swiftCode).ret = .value none := by
      simp [GetSwiftCodeDetails, hmiss]
    unfold GetSwiftCodeHandler
    simp only [hpath, HasPrefix_append, TrimPrefix_append, hne, hret, Bool.not_true, if_false,
      Bool.false_eq_true]
    rfl

/-- Evaluation of C13 at two failing inputs: on a database whose every
statement fails with "invalid connection" the lookup of "TESTUS33XXX" is a
storage error and the request is answered 404; with the headquarters row found
and a failing branch query, the request is answered 404 as well. -/
theorem lookup_error_answered_like_miss_witness :
    ((GetSwiftCodeDetails noUnicode
          (MySQLSwiftRepository (failingDB (Errorf "invalid connection"))) ()
          (str "TESTUS33XXX")).ret = .error (Errorf "invalid connection") ∧
        (GetSwiftCodeHandler noUnicode
          (MySQLSwiftRepository (failingDB (Errorf "invalid connection"))) ()
          ⟨"GET", str "/api/v1/swift-codes/TESTUS33XXX", []⟩).ret.code = some 404) ∧
      ((GetSwiftCodeDetails noUnicode branchFailRepo [rowHeadquarter]
          (str "TESTUS33XXX")).ret =
          .error (Errorf "failed to execute query: connection lost") ∧
        (GetSwiftCodeHandler noUnicode branchFailRepo [rowHeadquarter]
          ⟨"GET", str "/api/v1/swift-codes/TESTUS33XXX", []⟩).ret.code = some 404 ∧
        (GetSwiftCodeHandler noUnicode branchFailRepo [rowHeadquarter]
          ⟨"GET", str "/api/v1/swift-codes/TESTUS33XXX", []⟩).ret.textBody =
          some (str "SWIFT code not found\n")) :=
  ⟨⟨((lookup_error_answered_like_miss noUnicode
        (MySQLSwiftRepository (failingDB (Errorf "invalid connection"))) () ()
        ⟨"GET", str "/api/v1/swift-codes/TESTUS33XXX", []⟩ (str "TESTUS33XXX")
        (by decide) (by decide)).1 (Errorf "invalid connection") rfl).1,
     ((lookup_error_answered_like_miss noUnicode
        (MySQLSwiftRepository (failingDB (Errorf "invalid connection"))) () ()
        ⟨"GET", str "/api/v1/swift-codes/TESTUS33XXX", []⟩ (str "TESTUS33XXX")
        (by decide) (by decide)).1 (Errorf "invalid connection") rfl).2.2.1⟩,
   ⟨((lookup_error_answered_like_miss noUnicode branchFailRepo [rowHeadquarter]
        [rowHeadquarter] ⟨"GET", str "/api/v1/swift-codes/TESTUS33XXX", []⟩
        (str "TESTUS33XXX") (by decide) (by decide)).2.1 rowHeadquarter
        (Errorf "failed to execute query: connection lost") [rowHeadquarter]
        rfl rfl (by decide) rfl).1,
     ((lookup_error_answered_like_miss noUnicode branchFailRepo [rowHeadquarter]
        [rowHeadquarter] ⟨"GET", str "/api/v1/swift-codes/TESTUS33XXX", []⟩
        (str "TESTUS33XXX") (by decide) (by decide)).2.1 rowHeadquarter
        (Errorf "failed to execute query: connection lost") [rowHeadquarter]
        rfl rfl (by decide) rfl).2.2.1,
     ((lookup_error_answered_like_miss noUnicode branchFailRepo [rowHeadquarter]
        [rowHeadquarter] ⟨"GET", str "/api/v1/swift-codes/TESTUS33XXX", []⟩
        (str "TESTUS33XXX") (by decide) (by decide)).2.1 rowHeadquarter
        (Errorf "failed to execute query: connection lost") [rowHeadquarter]
        rfl rfl (by decide) rfl).2.2.2.2⟩⟩

/-- C14: for a POST handled by `CreateSwiftCodeHandler`: a body that does not
decode is answered 400 without a call of the service; a body that decodes to
a request `CreateSwiftCode` rejects, for a failed check or a failed store, is
answered 500; a body that decodes to a request `CreateSwiftCode` accepts is
answered 201 with the JSON object whose member "message" is "SWIFT code
created successfully". -/
theorem create_handler_status {σ : Type}
    (decode : GoString → Except GoError CreateSwiftCodeRequest)
    (unicodeUpper : GoString → GoString)
    (repo : SwiftCodeRepository σ) (st : σ) (r : Request)
    (hmethod : r.Method = "POST") :
    (∀ err, decode r.Body = .error err →
        (CreateSwiftCodeHandler decode unicodeUpper repo st r).ret.code = some 400 ∧
        (CreateSwiftCodeHandler decode unicodeUpper repo st r).calls = []) ∧
      (∀ req, decode r.Body = .ok req →
        (CreateSwiftCode unicodeUpper repo st req).ret ≠ none →
        (CreateSwiftCodeHandler decode unicodeUpper repo st r).ret.code = some 500) ∧
      (∀ req, decode r.Body = .ok req →
        (CreateSwiftCode unicodeUpper repo st req).ret = none →
        (CreateSwiftCodeHandler decode unicodeUpper repo st r).ret.code = some 201 ∧
        (CreateSwiftCodeHandler decode unicodeUpper repo st r).ret.jsonBody =
          some (.object [("message", .string (str "SWIFT code created successfully"))])) := by
  refine ⟨?_, ?_, ?_⟩
  · intro err hdec
    unfold CreateSwiftCodeHandler
    simp only [hmethod, hdec, ne_eq, not_true_eq_false, if_false]
    exact ⟨rfl, trivial⟩
  · intro req hdec hrej
    unfold CreateSwiftCodeHandler
    simp only [hmethod, hdec, ne_eq, not_true_eq_false, if_false]
    cases hret : (CreateSwiftCode unicodeUpper repo st req).ret with
    | none => exact absurd hret hrej
    | some e => rfl
  · intro req hdec hacc
    unfold CreateSwiftCodeHandler
    simp only [hmethod, hdec, hacc, ne_eq, not_true_eq_false, if_false]
    exact ⟨rfl, rfl⟩

/-- Witness of C14: the request of `TestCreateSwiftCodeHandler` on the empty
table is answered 201; the request of `TestCreateSwiftCodeValidationError` is
answered 500. -/
theorem create_handler_status_witness :
    (CreateSwiftCodeHandler (decodeAs reqTestBank) noUnicode (MySQLSwiftRepository tableDB) []
        ⟨"POST", str "/api/v1/swift-codes", []⟩).ret.code = some 201 ∧
      (CreateSwiftCodeHandler (decodeAs reqInvalid) noUnicode (MySQLSwiftRepository tableDB) []
        ⟨"POST", str "/api/v1/swift-codes", []⟩).ret.code = some 500 :=
  ⟨((create_handler_status (decodeAs reqTestBank) noUnicode (MySQLSwiftRepository tableDB) []
      ⟨"POST", str "/api/v1/swift-codes", []⟩ rfl).2.2 reqTestBank rfl (by decide)).1,
   (create_handler_status (decodeAs reqInvalid) noUnicode (MySQLSwiftRepository tableDB) []
      ⟨"POST", str "/api/v1/swift-codes", []⟩ rfl).2.1 reqInvalid rfl (by decide)⟩

theorem by_country_calls {σ : Type} (unicodeUpper : GoString → GoString)
    (repo : SwiftCodeRepository σ) (st : σ) (countryISO2 : GoString) :
    (GetSwiftCodesByCountry unicodeUpper repo st countryISO2).calls =
      [.GetByCountry countryISO2] := by
  unfold GetSwiftCodesByCountry
  rcases hq : repo.GetByCountry st countryISO2 with ⟨res, st1⟩
  cases res with
  | error err => rfl
  | ok entities => cases entities <;> rfl

/-! ## Failures of the store on insert -/

/-- Counterexample to C15 as stated: the table holds "TESTUS33XXX".  Inserting
that code again is refused because the code exists; inserting the 12-byte
code "TESTUS33XXXX" is refused although no row has that code.  The repository
and the service return the same error in both cases, the driver's text under
the same two wrappers. -/
theorem duplicate_not_told_apart :
    ([newEntity noUnicode reqTestBank].any fun e =>
        decide (e.SwiftCode = reqTestBank.SwiftCode)) = true ∧
      ([newEntity noUnicode reqTestBank].any fun e =>
        decide (e.SwiftCode = reqTwelve.SwiftCode)) = false ∧
      ((MySQLSwiftRepository tableDB).Create [newEntity noUnicode reqTestBank]
          (newEntity noUnicode reqTestBank)).1 =
        ((MySQLSwiftRepository tableDB).Create [newEntity noUnicode reqTestBank]
          (newEntity noUnicode reqTwelve)).1 ∧
      (CreateSwiftCode noUnicode (MySQLSwiftRepository tableDB)
          [newEntity noUnicode reqTestBank] reqTestBank).ret =
        some (ErrorfW "failed to create SWIFT code: "
          (ErrorfW "failed to execute insert query: " (Errorf "constraint failed"))) ∧
      (CreateSwiftCode noUnicode (MySQLSwiftRepository tableDB)
          [newEntity noUnicode reqTestBank] reqTwelve).ret =
        some (ErrorfW "failed to create SWIFT code: "
          (ErrorfW "failed to execute insert query: " (Errorf "constraint failed"))) := by
  decide

/-- C15 (amended): whatever the reason for which the store refuses an insert,
an existing swiftCode included, `Create` fails with the store's error wrapped
as "failed to execute insert query: ..." and `CreateSwiftCode` with that error
wrapped as "failed to create SWIFT code: ..."; the outcome depends on the
store's error alone, and no outcome is set apart for an existing code. -/
theorem insert_failure_wrapped_alike {δ : Type} (unicodeUpper : GoString → GoString)
    (db : SqlDB δ) (st st1 : δ) (req : CreateSwiftCodeRequest) (d : GoError)
    (hlen : 8 ≤ req.SwiftCode.length)
    (hcountry : req.CountryISO2 ≠ [] ∧ req.CountryName ≠ [])
    (hbank : req.BankName ≠ [] ∧ req.Address ≠ [])
    (hflag : req.IsHeadquarter =
      (decide (req.SwiftCode.length = 11) && decide (req.SwiftCode.drop 8 = str "XXX")))
    (hrefused : db.insert st (newEntity unicodeUpper req) = (some d, st1)) :
    (MySQLSwiftRepository db).Create st (newEntity unicodeUpper req) =
        (some (ErrorfW "failed to execute insert query: " d), st1) ∧
      (CreateSwiftCode unicodeUpper (MySQLSwiftRepository db) st req).ret =
        some (ErrorfW "failed to create SWIFT code: "
          (ErrorfW "failed to execute insert query: " d)) := by
  have hrepo : (MySQLSwiftRepository db).Create st (newEntity unicodeUpper req) =
      (some (ErrorfW "failed to execute insert query: " d), st1) := by
    simp [MySQLSwiftRepository, hrefused]
  refine ⟨hrepo, ?_⟩
  rw [CreateSwiftCode_valid unicodeUpper (MySQLSwiftRepository db) st req (by omega)
    (by simp [hcountry.1, hcountry.2]) (by simp [hbank.1, hbank.2]) hflag, hrepo]
  rfl

/-- Witness of C15 (amended): the table holds "TESTUS33XXX" and the request of
`TestCreateSwiftCode` is made again. -/
theorem insert_failure_wrapped_alike_witness :
    (CreateSwiftCode noUnicode (MySQLSwiftRepository tableDB)
        [newEntity noUnicode reqTestBank] reqTestBank).ret =
      some (ErrorfW "failed to create SWIFT code: "
        (ErrorfW "failed to execute insert query: " (Errorf "constraint failed"))) :=
  (insert_failure_wrapped_alike noUnicode tableDB [newEntity noUnicode reqTestBank]
    [newEntity noUnicode reqTestBank] reqTestBank (Errorf "constraint failed")
    (by decide) (by decide) (by decide) (by decide) rfl).2

/-! ## The country parameter is not normalised -/

/-- C16: `GetSwiftCodesByCountry` makes one repository call, `GetByCountry`
with the parameter as given, and the repository passes the parameter as given
to the store.  So when the store returns the rows whose countryISO2 equals
the argument exactly, every such value being in upper case, a parameter that
upper-casing changes, and likewise a parameter with a letter `a` to `z` when no
stored value has one, gets the empty response. -/
theorem country_parameter_as_given {δ : Type} (unicodeUpper : GoString → GoString)
    (db : SqlDB δ) (st : δ) (countryISO2 : GoString) :
    (GetSwiftCodesByCountry unicodeUpper (MySQLSwiftRepository db) st countryISO2).calls =
        [.GetByCountry countryISO2] ∧
      (∀ entities st1, db.selectByCountry st countryISO2 = (.ok (.rows entities), st1) →
        (MySQLSwiftRepository db).GetByCountry st countryISO2 = (.ok entities, st1)) ∧
      (∀ entities st1, db.selectByCountry st countryISO2 = (.ok (.rows entities), st1) →
        (∀ e ∈ entities, e.CountryISO2 = countryISO2) →
        (∀ e ∈ entities, ToUpper unicodeUpper e.CountryISO2 = e.CountryISO2) →
        ToUpper unicodeUpper countryISO2 ≠ countryISO2 →
        (GetSwiftCodesByCountry unicodeUpper (MySQLSwiftRepository db) st countryISO2).ret =
          .ok none) ∧
      (∀ entities st1, db.selectByCountry st countryISO2 = (.ok (.rows entities), st1) →
        (∀ e ∈ entities, e.CountryISO2 = countryISO2) →
        (∀ e ∈ entities, ∀ c ∈ e.CountryISO2, ¬ (97 ≤ c ∧ c ≤ 122)) →
        (∃ c ∈ countryISO2, 97 ≤ c ∧ c ≤ 122) →
        (GetSwiftCodesByCountry unicodeUpper (MySQLSwiftRepository db) st countryISO2).ret =
          .ok none) := by
  have hrepo : ∀ entities st1,
      db.selectByCountry st countryISO2 = (.ok (.rows entities), st1) →
      (MySQLSwiftRepository db).GetByCountry st countryISO2 = (.ok entities, st1) := by
    intro entities st1 hsel
    simp [MySQLSwiftRepository, hsel, collectRows]
  refine ⟨(by_country_calls unicodeUpper (MySQLSwiftRepository db) st countryISO2), hrepo,
    ?_, ?_⟩
  · intro entities st1 hsel hexact hupper hP
    have hnil : entities = [] := by
      cases entities with
      | nil => rfl
      | cons e rest =>
        have h1 := hexact e (by simp)
        have h2 := hupper e (by simp)
        rw [h1] at h2
        exact absurd h2 hP
    subst hnil
    simp [GetSwiftCodesByCountry, hrepo [] st1 hsel]
  · intro entities st1 hsel hexact hupper hP
    have hnil : entities = [] := by
      cases entities with
      | nil => rfl
      | cons e rest =>
        obtain ⟨c, hc, hlow⟩ := hP
        have h1 := hexact e (by simp)
        exact absurd hlow (hupper e (by simp) c (by rw [h1]; exact hc))
    subst hnil
    simp [GetSwiftCodesByCountry, hrepo [] st1 hsel]

/-- Witness of C16: the table holds the headquarters row of country "US"; the
listing for "us" is empty, the listing for "US" is not. -/
theorem country_parameter_as_given_witness :
    (GetSwiftCodesByCountry noUnicode (MySQLSwiftRepository tableDB) [rowHeadquarter]
        (str "us")).ret = .ok none ∧
      ToUpper noUnicode (str "us") = str "US" ∧
      ∃ response, (GetSwiftCodesByCountry noUnicode (MySQLSwiftRepository tableDB)
        [rowHeadquarter] (str "US")).ret = .ok (some response) :=
  ⟨(country_parameter_as_given noUnicode tableDB [rowHeadquarter] (str "us")).2.2.1
      [] [rowHeadquarter] rfl (by simp) (by simp) (by decide),
   rfl, _, rfl⟩

/-! ## The slice `SwiftCode[:8]` and the unit of the length checks -/

/-- C17: every entity `CreateSwiftCode` hands to the repository has a code of
at least 8 bytes, of exactly 11 when it is flagged headquarters; when a lookup
returns such an entity, `GetSwiftCodeDetails` does not panic; when a lookup
returns an entity flagged headquarters whose code has fewer than 8 bytes, the
slice `SwiftCode[:8]` is out of range and `GetSwiftCodeDetails` panics before
any branch query. -/
theorem created_code_slice_in_bounds {σ : Type} (unicodeUpper : GoString → GoString)
    (repo : SwiftCodeRepository σ) (st : σ) (req : CreateSwiftCodeRequest) :
    (∀ e, RepoCall.Create e ∈ (CreateSwiftCode unicodeUpper repo st req).calls →
        8 ≤ e.SwiftCode.length ∧ (e.IsHeadquarter = true → e.SwiftCode.length = 11)) ∧
      (∀ e, RepoCall.Create e ∈ (CreateSwiftCode unicodeUpper repo st req).calls →
        ∀ (st2 st3 : σ) (swiftCode : GoString),
          repo.GetBySwiftCode st2 swiftCode = (.ok (some e), st3) →
          ∀ text, (GetSwiftCodeDetails unicodeUpper repo st2 swiftCode).ret ≠ .panic text) ∧
      (∀ (e : SwiftEntity) (st2 st3 : σ) (swiftCode : GoString),
        repo.GetBySwiftCode st2 swiftCode = (.ok (some e), st3) →
        e.IsHeadquarter = true → e.SwiftCode.length < 8 →
        (GetSwiftCodeDetails unicodeUpper repo st2 swiftCode).ret =
            .panic "slice bounds out of range" ∧
          (GetSwiftCodeDetails unicodeUpper repo st2 swiftCode).calls =
            [.GetBySwiftCode swiftCode]) := by
  have hcreated : ∀ e, RepoCall.Create e ∈ (CreateSwiftCode unicodeUpper repo st req).calls →
      8 ≤ e.SwiftCode.length ∧ (e.IsHeadquarter = true → e.SwiftCode.length = 11) := by
    intro e he
    by_cases h1 : req.SwiftCode.length < 8
    · rw [CreateSwiftCode_short unicodeUpper repo st req h1] at he
      simp at he
    by_cases h2 : req.CountryISO2 = [] ∨ req.CountryName = []
    · rw [CreateSwiftCode_noCountry unicodeUpper repo st req h1 h2] at he
      simp at he
    by_cases h3 : req.BankName = [] ∨ req.Address = []
    · rw [CreateSwiftCode_noBank unicodeUpper repo st req h1 h2 h3] at he
      simp at he
    by_cases h4 : req.IsHeadquarter = isHQ req.SwiftCode
    · rw [CreateSwiftCode_valid unicodeUpper repo st req h1 h2 h3 h4] at he
      have hee : e = newEntity unicodeUpper req := by simpa using he
      subst hee
      refine ⟨by simp only [newEntity]; omega, ?_⟩
      intro hq
      have hq1 : req.IsHeadquarter = true := hq
      rw [h4] at hq1
      exact ((isHQ_iff req.SwiftCode).1 hq1).1
    · rw [CreateSwiftCode_flag unicodeUpper repo st req h1 h2 h3 h4] at he
      simp at he
  refine ⟨hcreated, ?_, ?_⟩
  · intro e he st2 st3 swiftCode hfind text
    have hlen := (hcreated e he).1
    cases hq : e.IsHeadquarter
    · rw [GetSwiftCodeDetails_branch unicodeUpper repo st2 st3 swiftCode e hfind hq]
      simp
    · rcases hbr : repo.GetBranchesByHqSwiftCode st3 (e.SwiftCode.take 8) with ⟨res, st4⟩
      cases res with
      | error err =>
        rw [GetSwiftCodeDetails_branch_error unicodeUpper repo st2 st3 st4 swiftCode e err
          hfind hq hlen hbr]
        simp
      | ok branches =>
        rw [GetSwiftCodeDetails_headquarter unicodeUpper repo st2 st3 st4 swiftCode e branches
          hfind hq hlen hbr]
        simp
  · intro e st2 st3 swiftCode hfind hq hlen
    rw [GetSwiftCodeDetails_short unicodeUpper repo st2 st3 swiftCode e hfind hq hlen]
    exact ⟨rfl, rfl⟩

/-- Witness of C17: the entity of the request of `TestCreateSwiftCode` has a
code of 11 bytes; looked up in the store that holds it, it causes no panic;
the row "SHORTHQ", flagged headquarters, causes one. -/
theorem created_code_slice_in_bounds_witness :
    (newEntity noUnicode reqTestBank).SwiftCode.length = 11 ∧
      (∀ text, (GetSwiftCodeDetails noUnicode memoryRepo [newEntity noUnicode reqTestBank]
        (str "TESTUS33XXX")).ret ≠ .panic text) ∧
      (GetSwiftCodeDetails noUnicode memoryRepo [rowShortHeadquarter] (str "SHORTHQ")).ret =
        .panic "slice bounds out of range" :=
  ⟨((created_code_slice_in_bounds noUnicode memoryRepo [] reqTestBank).1
      (newEntity noUnicode reqTestBank) (by decide)).2 rfl,
   (created_code_slice_in_bounds noUnicode memoryRepo [] reqTestBank).2.1
      (newEntity noUnicode reqTestBank) (by decide) [newEntity noUnicode reqTestBank]
      [newEntity noUnicode reqTestBank] (str "TESTUS33XXX") rfl,
   ((created_code_slice_in_bounds noUnicode memoryRepo [] reqTestBank).2.2
      rowShortHeadquarter [rowShortHeadquarter] [rowShortHeadquarter] (str "SHORTHQ")
      rfl rfl (by decide)).1⟩

/-- C18: the length checks count bytes.  The code "ŁŁŁŁ" has 4 characters and
8 bytes; with it, isHeadquarter false and the other fields non-empty,
`CreateSwiftCode` passes the four checks: it makes the one call `Create` on the
entity built from the request, leaves the store as that call leaves it and
returns that call's error, wrapped, or nil, so a store that accepts the row
persists it.  `DeleteSwiftCode` with that code passes its length check: it
makes the one call `Delete` with the code, leaves the store as that call
leaves it and returns that call's error, wrapped, or nil. -/
theorem length_checks_count_bytes {σ : Type} (unicodeUpper : GoString → GoString)
    (repo : SwiftCodeRepository σ) (st : σ) :
    reqTwoByteLetters.SwiftCode = str "ŁŁŁŁ" ∧
      "ŁŁŁŁ".length = 4 ∧
      (str "ŁŁŁŁ").length = 8 ∧
      (CreateSwiftCode unicodeUpper repo st reqTwoByteLetters).calls =
        [.Create
          { SwiftCode := str "ŁŁŁŁ"
            BankName := str "Test Bank"
            Address := str "123 Main St"
            CountryISO2 := str "PL"
            CountryName := str "POLAND"
            IsHeadquarter := false }] ∧
      (CreateSwiftCode unicodeUpper repo st reqTwoByteLetters).store =
        (repo.Create st (newEntity unicodeUpper reqTwoByteLetters)).2 ∧
      (CreateSwiftCode unicodeUpper repo st reqTwoByteLetters).ret =
        ((repo.Create st (newEntity unicodeUpper reqTwoByteLetters)).1).map
          (ErrorfW "failed to create SWIFT code: ") ∧
      ((CreateSwiftCode unicodeUpper repo st reqTwoByteLetters).ret = none ↔
        (repo.Create st (newEntity unicodeUpper reqTwoByteLetters)).1 = none) ∧
      (CreateSwiftCode noUnicode memoryRepo [] reqTwoByteLetters).ret = none ∧
      (CreateSwiftCode noUnicode memoryRepo [] reqTwoByteLetters).store =
        [newEntity noUnicode reqTwoByteLetters] ∧
      (DeleteSwiftCode repo st (str "ŁŁŁŁ")).calls = [.Delete (str "ŁŁŁŁ")] ∧
      (DeleteSwiftCode repo st (str "ŁŁŁŁ")).store = (repo.Delete st (str "ŁŁŁŁ")).2 ∧
      (DeleteSwiftCode repo st (str "ŁŁŁŁ")).ret =
        ((repo.Delete st (str "ŁŁŁŁ")).1).map (ErrorfW "failed to delete SWIFT code: ") ∧
      (DeleteSwiftCode memoryRepo [newEntity noUnicode reqTwoByteLetters] (str "ŁŁŁŁ")).ret =
        none ∧
      (DeleteSwiftCode memoryRepo [newEntity noUnicode reqTwoByteLetters] (str "ŁŁŁŁ")).store =
        [] := by
  have hvalid := CreateSwiftCode_valid unicodeUpper repo st reqTwoByteLetters
    (by decide) (by decide) (by decide) (by decide)
  have hdelete := DeleteSwiftCode_long repo st (str "ŁŁŁŁ") (by decide)
  refine ⟨rfl, by decide, by decide, ?_, ?_, ?_, ?_, by decide, by decide, ?_, ?_, ?_,
    by decide, by decide⟩
  · rw [hvalid]
    rfl
  · rw [hvalid]
  · rw [hvalid]
  · rw [hvalid]
    simp
  · rw [hdelete]
  · rw [hdelete]
  · rw [hdelete]

end GoSwift
